import Mathlib

/-!
Verification of the rmpv value decoder (src/rmpv/src/decode/value.rs), a
recursive-descent parser turning a MessagePack byte stream into a dynamically
typed value tree.

The byte source is modelled as a list of events: a data byte, or a transient
interrupted-read signal that the reading primitives retry past, mirroring the
retry-on-interrupt behavior of the standard library read_exact loop that the
decoder relies on. Machine integers are Nat and Int; floating point payloads
are carried as their raw big-endian bit patterns, since the decoder never
inspects them. The recursion of read_value over nested arrays and maps is made
total with an explicit fuel parameter: a result of none means the fuel bound
was hit and corresponds to no behavior of the source program, which recurses
without a depth limit.

The helper library functions (marker classification, fixed-width big-endian
data reads) and the Value and Utf8String types live outside the provided
source file; their definitions below are modelled from the specification, as
their doc comments state.
-/

set_option maxRecDepth 16384

namespace Rmpv

/-- Kinds of underlying I/O failure, restricted to the kinds the decoder can
meet or construct: end of input, the transient interrupted signal, and the
catch-all other kind. -/
inductive IOErrorKind where
  | unexpectedEof
  | interrupted
  | other
  deriving Repr, DecidableEq

/-- An underlying I/O error: a kind together with a message. -/
structure IOError where
  kind : IOErrorKind
  msg : String
  deriving Repr, DecidableEq

/-- The error produced by the exact-read primitive at premature end of
input. -/
def eofErr : IOError := ⟨.unexpectedEof, "failed to fill whole buffer"⟩

/-- One unit of input: a data byte, or a transient interrupted signal from the
source. -/
inductive Event where
  | byte (b : Nat)
  | interrupt
  deriving Repr, DecidableEq

/-- Modelled input source: the sequence of events the reader will observe. -/
abbrev Stream := List Event

/-- Bytes-only input fragment, injected into the event stream. -/
def bytes (bs : List Nat) : Stream := bs.map Event.byte

/-- Modelled from the spec: read one byte from the source, transparently
retrying past interrupted signals; at end of input, fail with the unexpected
end of file error. -/
def readByte : Stream → Except IOError (Nat × Stream)
  | [] => .error eofErr
  | .interrupt :: rest => readByte rest
  | .byte b :: rest => .ok (b, rest)

/-- Modelled from the spec: read exactly n bytes, issuing as many underlying
reads as needed; a shortfall is an error and interrupted reads are retried. -/
def readExact : Nat → Stream → Except IOError (List Nat × Stream)
  | 0, st => .ok ([], st)
  | n + 1, st =>
    match readByte st with
    | .error e => .error e
    | .ok (b, st1) =>
      match readExact n st1 with
      | .error e => .error e
      | .ok (bs, st2) => .ok (b :: bs, st2)

/-- Classification of one leading marker byte into the closed set of wire
encodings. Modelled from the spec: the rmp Marker type. -/
inductive Marker where
  | Null | True | False
  | FixPos (val : Nat)
  | FixNeg (val : Int)
  | U8 | U16 | U32 | U64
  | I8 | I16 | I32 | I64
  | F32 | F64
  | FixStr (len : Nat)
  | Str8 | Str16 | Str32
  | FixArray (len : Nat)
  | Array16 | Array32
  | FixMap (len : Nat)
  | Map16 | Map32
  | Bin8 | Bin16 | Bin32
  | FixExt1 | FixExt2 | FixExt4 | FixExt8 | FixExt16
  | Ext8 | Ext16 | Ext32
  | Reserved
  deriving Repr, DecidableEq

/-- Modelled from the spec: the wire-format table mapping each marker byte to
its classification. -/
def Marker.fromU8 (b : Nat) : Marker :=
  if b ≤ 0x7f then .FixPos b
  else if b ≤ 0x8f then .FixMap (b - 0x80)
  else if b ≤ 0x9f then .FixArray (b - 0x90)
  else if b ≤ 0xbf then .FixStr (b - 0xa0)
  else if b = 0xc0 then .Null
  else if b = 0xc1 then .Reserved
  else if b = 0xc2 then .False
  else if b = 0xc3 then .True
  else if b = 0xc4 then .Bin8
  else if b = 0xc5 then .Bin16
  else if b = 0xc6 then .Bin32
  else if b = 0xc7 then .Ext8
  else if b = 0xc8 then .Ext16
  else if b = 0xc9 then .Ext32
  else if b = 0xca then .F32
  else if b = 0xcb then .F64
  else if b = 0xcc then .U8
  else if b = 0xcd then .U16
  else if b = 0xce then .U32
  else if b = 0xcf then .U64
  else if b = 0xd0 then .I8
  else if b = 0xd1 then .I16
  else if b = 0xd2 then .I32
  else if b = 0xd3 then .I64
  else if b = 0xd4 then .FixExt1
  else if b = 0xd5 then .FixExt2
  else if b = 0xd6 then .FixExt4
  else if b = 0xd7 then .FixExt8
  else if b = 0xd8 then .FixExt16
  else if b = 0xd9 then .Str8
  else if b = 0xda then .Str16
  else if b = 0xdb then .Str32
  else if b = 0xdc then .Array16
  else if b = 0xdd then .Array32
  else if b = 0xde then .Map16
  else if b = 0xdf then .Map32
  else .FixNeg ((b : Int) - 256)

/-- Error while reading the marker byte (the rmp MarkerReadError wrapper). -/
structure MarkerReadError where
  err : IOError
  deriving Repr, DecidableEq

/-- Errors of the rmp fixed-width data reading helpers, modelled from the
spec; the type-mismatch variant exists in the helper library but is never
produced by the data reads the decoder performs. -/
inductive ValueReadError where
  | InvalidMarkerRead (err : IOError)
  | InvalidDataRead (err : IOError)
  | TypeMismatch (marker : Marker)
  deriving Repr, DecidableEq

/-- All possible errors that can occur when deserializing a value. -/
inductive Error where
  | InvalidMarkerRead (err : IOError)
  | InvalidDataRead (err : IOError)
  deriving Repr, DecidableEq

/-- Kind of the wrapped underlying I/O error. -/
def Error.kind : Error → IOErrorKind
  | .InvalidMarkerRead e => e.kind
  | .InvalidDataRead e => e.kind

/-- Conversion of marker-read failures into the decoder error type. -/
def Error.fromMarkerReadError : MarkerReadError → Error
  | ⟨e⟩ => .InvalidMarkerRead e

/-- Conversion of helper-library read failures into the decoder error type: a
type mismatch is folded into the marker-read variant wrapping a freshly built
I/O error of the catch-all kind with the message type mismatch. -/
def Error.fromValueReadError : ValueReadError → Error
  | .InvalidMarkerRead e => .InvalidMarkerRead e
  | .InvalidDataRead e => .InvalidDataRead e
  | .TypeMismatch _ => .InvalidMarkerRead ⟨.other, "type mismatch"⟩

/-- Modelled from the spec: consume exactly one byte and classify it; failure
of the underlying read is a marker-read failure. -/
def read_marker (st : Stream) : Except MarkerReadError (Marker × Stream) :=
  match readByte st with
  | .error e => .error ⟨e⟩
  | .ok (b, st1) => .ok (Marker.fromU8 b, st1)

/-- Big-endian value of a byte sequence. -/
def beNat (bs : List Nat) : Nat := bs.foldl (fun acc b => acc * 256 + b) 0

/-- Reading of an unsigned value of the given bit width as a two-complement
signed integer. -/
def toSigned (bits : Nat) (n : Nat) : Int :=
  if n < 2 ^ (bits - 1) then (n : Int) else (n : Int) - 2 ^ bits

/-- Modelled from the spec: read a big-endian unsigned payload of the given
byte width; a short read is a data-read error. The ten fixed-width helper
readers of the helper library all specialize this and the signed variant. -/
def read_data_num (width : Nat) (st : Stream) : Except ValueReadError (Nat × Stream) :=
  match readExact width st with
  | .error e => .error (.InvalidDataRead e)
  | .ok (bs, st1) => .ok (beNat bs, st1)

/-- Modelled from the spec: read a big-endian signed payload of the given bit
width; a short read is a data-read error. -/
def read_data_int (bits : Nat) (st : Stream) : Except ValueReadError (Int × Stream) :=
  match read_data_num (bits / 8) st with
  | .error e => .error e
  | .ok (n, st1) => .ok (toSigned bits n, st1)

/-- Modelled from the spec: unsigned 8 bit data read. -/
def read_data_u8 (st : Stream) : Except ValueReadError (Nat × Stream) :=
  read_data_num 1 st

/-- Modelled from the spec: unsigned 16 bit big-endian data read. -/
def read_data_u16 (st : Stream) : Except ValueReadError (Nat × Stream) :=
  read_data_num 2 st

/-- Modelled from the spec: unsigned 32 bit big-endian data read. -/
def read_data_u32 (st : Stream) : Except ValueReadError (Nat × Stream) :=
  read_data_num 4 st

/-- Modelled from the spec: unsigned 64 bit big-endian data read. -/
def read_data_u64 (st : Stream) : Except ValueReadError (Nat × Stream) :=
  read_data_num 8 st

/-- Modelled from the spec: signed 8 bit data read. -/
def read_data_i8 (st : Stream) : Except ValueReadError (Int × Stream) :=
  read_data_int 8 st

/-- Modelled from the spec: signed 16 bit big-endian data read. -/
def read_data_i16 (st : Stream) : Except ValueReadError (Int × Stream) :=
  read_data_int 16 st

/-- Modelled from the spec: signed 32 bit big-endian data read. -/
def read_data_i32 (st : Stream) : Except ValueReadError (Int × Stream) :=
  read_data_int 32 st

/-- Modelled from the spec: signed 64 bit big-endian data read. -/
def read_data_i64 (st : Stream) : Except ValueReadError (Int × Stream) :=
  read_data_int 64 st

/-- Modelled from the spec: 32 bit float data read, carried as its raw
big-endian bit pattern. -/
def read_data_f32 (st : Stream) : Except ValueReadError (Nat × Stream) :=
  read_data_num 4 st

/-- Modelled from the spec: 64 bit float data read, carried as its raw
big-endian bit pattern. -/
def read_data_f64 (st : Stream) : Except ValueReadError (Nat × Stream) :=
  read_data_num 8 st

/-- Continuation-byte ranges required after a UTF-8 lead byte; none identifies
an invalid lead byte. Modelled from the spec: standard strict UTF-8 validation
as performed by the Rust standard library string conversion. -/
def utf8Hdr (b : Nat) : Option (List (Nat × Nat)) :=
  if b ≤ 0x7f then some []
  else if 0xc2 ≤ b ∧ b ≤ 0xdf then some [(0x80, 0xbf)]
  else if b = 0xe0 then some [(0xa0, 0xbf), (0x80, 0xbf)]
  else if 0xe1 ≤ b ∧ b ≤ 0xec then some [(0x80, 0xbf), (0x80, 0xbf)]
  else if b = 0xed then some [(0x80, 0x9f), (0x80, 0xbf)]
  else if 0xee ≤ b ∧ b ≤ 0xef then some [(0x80, 0xbf), (0x80, 0xbf)]
  else if b = 0xf0 then some [(0x90, 0xbf), (0x80, 0xbf), (0x80, 0xbf)]
  else if 0xf1 ≤ b ∧ b ≤ 0xf3 then some [(0x80, 0xbf), (0x80, 0xbf), (0x80, 0xbf)]
  else if b = 0xf4 then some [(0x80, 0x8f), (0x80, 0xbf), (0x80, 0xbf)]
  else none

/-- Consume the continuation bytes demanded by a lead byte; none identifies a
missing or out-of-range continuation byte. -/
def utf8TakeConts : List Nat → List (Nat × Nat) → Option (List Nat)
  | rest, [] => some rest
  | [], _ :: _ => none
  | b :: rest, (lo, hi) :: rs =>
    if lo ≤ b ∧ b ≤ hi then utf8TakeConts rest rs else none

/-- Scan a byte sequence for UTF-8 validity, returning the byte offset of the
first invalid sequence, or none when the whole sequence is valid. The first
argument is a structural recursion bound: every step consumes at least one
byte, so a bound exceeding the length of the list is never reached. -/
def utf8Go : Nat → List Nat → Nat → Option Nat
  | 0, _, _ => none
  | _ + 1, [], _ => none
  | f + 1, b :: rest, i =>
    match utf8Hdr b with
    | none => some i
    | some rs =>
      match utf8TakeConts rest rs with
      | none => some i
      | some rest2 => utf8Go f rest2 (i + 1 + rs.length)

/-- Byte offset of the first invalid UTF-8 sequence, or none when valid.
Modelled from the spec: the valid-up-to position of the standard library
UTF-8 validation. -/
def utf8ValidUpTo (bs : List Nat) : Option Nat := utf8Go (bs.length + 1) bs 0

/-- Text value: either valid UTF-8 content (carried as its byte sequence), or
the complete original raw bytes together with the byte offset of the first
invalid sequence. Modelled from the spec: the rmpv Utf8String type. -/
structure Utf8String where
  s : Except (List Nat × Nat) (List Nat)
  deriving Repr

/-- Dynamically typed decoded value. Modelled from the spec: the rmpv Value
type; floats are carried as raw big-endian bit patterns. -/
inductive Value where
  | Nil
  | Boolean (b : Bool)
  | UInt (n : Nat)
  | SInt (n : Int)
  | F32 (pattern : Nat)
  | F64 (pattern : Nat)
  | String (s : Utf8String)
  | Binary (bs : List Nat)
  | Array (vs : List Value)
  | Map (entries : List (Value × Value))
  | Ext (ty : Int) (data : List Nat)
  deriving Repr

/-- Read exactly len raw bytes verbatim; a failure of the underlying exact
read is a data-read error. -/
def read_bin_data (st : Stream) (len : Nat) : Except Error (List Nat × Stream) :=
  match readExact len st with
  | .error e => .error (.InvalidDataRead e)
  | .ok (buf, st1) => .ok (buf, st1)

/-- Read len bytes and attempt UTF-8 validation over the whole sequence.
Invalid UTF-8 is not an error: the complete raw bytes and the first invalid
byte offset are kept in a successful result. -/
def read_str_data (st : Stream) (len : Nat) : Except Error (Utf8String × Stream) :=
  match read_bin_data st len with
  | .error e => .error e
  | .ok (buf, st1) =>
    match utf8ValidUpTo buf with
    | none => .ok (⟨.ok buf⟩, st1)
    | some off => .ok (⟨.error (buf, off)⟩, st1)

/-- Read the signed 8 bit extension type tag, then len payload bytes. -/
def read_ext_body (st : Stream) (len : Nat) : Except Error ((Int × List Nat) × Stream) :=
  match read_data_i8 st with
  | .error e => .error (Error.fromValueReadError e)
  | .ok (ty, st1) =>
    match read_bin_data st1 len with
    | .error e => .error e
    | .ok (buf, st2) => .ok ((ty, buf), st2)

/-- Decode len values in sequence with the given element decoder, keeping
input order. The element decoder parameter is instantiated with read_value at
the current fuel. -/
def read_array_data (rv : Stream → Option (Except Error (Value × Stream))) :
    Stream → Nat → Option (Except Error (List Value × Stream))
  | st, 0 => some (.ok ([], st))
  | st, len + 1 =>
    match rv st with
    | none => none
    | some (.error e) => some (.error e)
    | some (.ok (v, st1)) =>
      match read_array_data rv st1 len with
      | none => none
      | some (.error e) => some (.error e)
      | some (.ok (vs, st2)) => some (.ok (v :: vs, st2))

/-- Decode len key and value pairs in sequence with the given element decoder,
the key of each pair fully decoded before its value, keeping input order and
duplicate keys. -/
def read_map_data (rv : Stream → Option (Except Error (Value × Stream))) :
    Stream → Nat → Option (Except Error (List (Value × Value) × Stream))
  | st, 0 => some (.ok ([], st))
  | st, len + 1 =>
    match rv st with
    | none => none
    | some (.error e) => some (.error e)
    | some (.ok (k, st1)) =>
      match rv st1 with
      | none => none
      | some (.error e) => some (.error e)
      | some (.ok (v, st2)) =>
        match read_map_data rv st2 len with
        | none => none
        | some (.error e) => some (.error e)
        | some (.ok (ps, st3)) => some (.ok ((k, v) :: ps, st3))

/-- Attempt to read bytes from the source and interpret them as a Value. The
fuel argument only bounds the recursion depth of the model: a result of none
means the fuel ran out and corresponds to no behavior of the source program. -/
def read_value : Nat → Stream → Option (Except Error (Value × Stream))
  | 0, _ => none
  | fuel + 1, st =>
    match read_marker st with
    | .error e => some (.error (Error.fromMarkerReadError e))
    | .ok (m, st1) =>
      match m with
      | .Null => some (.ok (.Nil, st1))
      | .True => some (.ok (.Boolean true, st1))
      | .False => some (.ok (.Boolean false, st1))
      | .FixPos val => some (.ok (.UInt val, st1))
      | .FixNeg val => some (.ok (.SInt val, st1))
      | .U8 =>
        match read_data_u8 st1 with
        | .error e => some (.error (Error.fromValueReadError e))
        | .ok (n, st2) => some (.ok (.UInt n, st2))
      | .U16 =>
        match read_data_u16 st1 with
        | .error e => some (.error (Error.fromValueReadError e))
        | .ok (n, st2) => some (.ok (.UInt n, st2))
      | .U32 =>
        match read_data_u32 st1 with
        | .error e => some (.error (Error.fromValueReadError e))
        | .ok (n, st2) => some (.ok (.UInt n, st2))
      | .U64 =>
        match read_data_u64 st1 with
        | .error e => some (.error (Error.fromValueReadError e))
        | .ok (n, st2) => some (.ok (.UInt n, st2))
      | .I8 =>
        match read_data_i8 st1 with
        | .error e => some (.error (Error.fromValueReadError e))
        | .ok (n, st2) => some (.ok (.SInt n, st2))
      | .I16 =>
        match read_data_i16 st1 with
        | .error e => some (.error (Error.fromValueReadError e))
        | .ok (n, st2) => some (.ok (.SInt n, st2))
      | .I32 =>
        match read_data_i32 st1 with
        | .error e => some (.error (Error.fromValueReadError e))
        | .ok (n, st2) => some (.ok (.SInt n, st2))
      | .I64 =>
        match read_data_i64 st1 with
        | .error e => some (.error (Error.fromValueReadError e))
        | .ok (n, st2) => some (.ok (.SInt n, st2))
      | .F32 =>
        match read_data_f32 st1 with
        | .error e => some (.error (Error.fromValueReadError e))
        | .ok (n, st2) => some (.ok (.F32 n, st2))
      | .F64 =>
        match read_data_f64 st1 with
        | .error e => some (.error (Error.fromValueReadError e))
        | .ok (n, st2) => some (.ok (.F64 n, st2))
      | .FixStr len =>
        match read_str_data st1 len with
        | .error e => some (.error e)
        | .ok (res, st2) => some (.ok (.String res, st2))
      | .Str8 =>
        match read_data_u8 st1 with
        | .error e => some (.error (Error.fromValueReadError e))
        | .ok (len, st2) =>
          match read_str_data st2 len with
          | .error e => some (.error e)
          | .ok (res, st3) => some (.ok (.String res, st3))
      | .Str16 =>
        match read_data_u16 st1 with
        | .error e => some (.error (Error.fromValueReadError e))
        | .ok (len, st2) =>
          match read_str_data st2 len with
          | .error e => some (.error e)
          | .ok (res, st3) => some (.ok (.String res, st3))
      | .Str32 =>
        match read_data_u32 st1 with
        | .error e => some (.error (Error.fromValueReadError e))
        | .ok (len, st2) =>
          match read_str_data st2 len with
          | .error e => some (.error e)
          | .ok (res, st3) => some (.ok (.String res, st3))
      | .FixArray len =>
        match read_array_data (read_value fuel) st1 len with
        | none => none
        | some (.error e) => some (.error e)
        | some (.ok (vs, st2)) => some (.ok (.Array vs, st2))
      | .Array16 =>
        match read_data_u16 st1 with
        | .error e => some (.error (Error.fromValueReadError e))
        | .ok (len, st2) =>
          match read_array_data (read_value fuel) st2 len with
          | none => none
          | some (.error e) => some (.error e)
          | some (.ok (vs, st3)) => some (.ok (.Array vs, st3))
      | .Array32 =>
        match read_data_u32 st1 with
        | .error e => some (.error (Error.fromValueReadError e))
        | .ok (len, st2) =>
          match read_array_data (read_value fuel) st2 len with
          | none => none
          | some (.error e) => some (.error e)
          | some (.ok (vs, st3)) => some (.ok (.Array vs, st3))
      | .FixMap len =>
        match read_map_data (read_value fuel) st1 len with
        | none => none
        | some (.error e) => some (.error e)
        | some (.ok (ps, st2)) => some (.ok (.Map ps, st2))
      | .Map16 =>
        match read_data_u16 st1 with
        | .error e => some (.error (Error.fromValueReadError e))
        | .ok (len, st2) =>
          match read_map_data (read_value fuel) st2 len with
          | none => none
          | some (.error e) => some (.error e)
          | some (.ok (ps, st3)) => some (.ok (.Map ps, st3))
      | .Map32 =>
        match read_data_u32 st1 with
        | .error e => some (.error (Error.fromValueReadError e))
        | .ok (len, st2) =>
          match read_map_data (read_value fuel) st2 len with
          | none => none
          | some (.error e) => some (.error e)
          | some (.ok (ps, st3)) => some (.ok (.Map ps, st3))
      | .Bin8 =>
        match read_data_u8 st1 with
        | .error e => some (.error (Error.fromValueReadError e))
        | .ok (len, st2) =>
          match read_bin_data st2 len with
          | .error e => some (.error e)
          | .ok (buf, st3) => some (.ok (.Binary buf, st3))
      | .Bin16 =>
        match read_data_u16 st1 with
        | .error e => some (.error (Error.fromValueReadError e))
        | .ok (len, st2) =>
          match read_bin_data st2 len with
          | .error e => some (.error e)
          | .ok (buf, st3) => some (.ok (.Binary buf, st3))
      | .Bin32 =>
        match read_data_u32 st1 with
        | .error e => some (.error (Error.fromValueReadError e))
        | .ok (len, st2) =>
          match read_bin_data st2 len with
          | .error e => some (.error e)
          | .ok (buf, st3) => some (.ok (.Binary buf, st3))
      | .FixExt1 =>
        match read_ext_body st1 1 with
        | .error e => some (.error e)
        | .ok ((ty, buf), st2) => some (.ok (.Ext ty buf, st2))
      | .FixExt2 =>
        match read_ext_body st1 2 with
        | .error e => some (.error e)
        | .ok ((ty, buf), st2) => some (.ok (.Ext ty buf, st2))
      | .FixExt4 =>
        match read_ext_body st1 4 with
        | .error e => some (.error e)
        | .ok ((ty, buf), st2) => some (.ok (.Ext ty buf, st2))
      | .FixExt8 =>
        match read_ext_body st1 8 with
        | .error e => some (.error e)
        | .ok ((ty, buf), st2) => some (.ok (.Ext ty buf, st2))
      | .FixExt16 =>
        match read_ext_body st1 16 with
        | .error e => some (.error e)
        | .ok ((ty, buf), st2) => some (.ok (.Ext ty buf, st2))
      | .Ext8 =>
        match read_data_u8 st1 with
        | .error e => some (.error (Error.fromValueReadError e))
        | .ok (len, st2) =>
          match read_ext_body st2 len with
          | .error e => some (.error e)
          | .ok ((ty, buf), st3) => some (.ok (.Ext ty buf, st3))
      | .Ext16 =>
        match read_data_u16 st1 with
        | .error e => some (.error (Error.fromValueReadError e))
        | .ok (len, st2) =>
          match read_ext_body st2 len with
          | .error e => some (.error e)
          | .ok ((ty, buf), st3) => some (.ok (.Ext ty buf, st3))
      | .Ext32 =>
        match read_data_u32 st1 with
        | .error e => some (.error (Error.fromValueReadError e))
        | .ok (len, st2) =>
          match read_ext_body st2 len with
          | .error e => some (.error e)
          | .ok ((ty, buf), st3) => some (.ok (.Ext ty buf, st3))
      | .Reserved => some (.ok (.Nil, st1))

/-- Shape of every error the decoder can produce: one of the two variants,
each wrapping the end-of-input I/O error. -/
def ErrShape (e : Error) : Prop :=
  e = .InvalidMarkerRead eofErr ∨ e = .InvalidDataRead eofErr

/-- Well-behavedness of an element decoder: every error it reports has the
expected shape, and every success consumed a determined prefix of the input
and is insensitive to what follows that prefix. -/
def RVGood (rv : Stream → Option (Except Error (Value × Stream))) : Prop :=
  ∀ st r, rv st = some r →
    (∀ e, r = .error e → ErrShape e) ∧
    (∀ v out, r = .ok (v, out) →
      ∃ C, st = C ++ out ∧ ∀ rest, rv (C ++ rest) = some (.ok (v, rest)))

/-- Container markers: the six array and map classifications whose decode
recurses into element decodes. -/
def containerMarker : Marker → Bool
  | .FixArray _ => true
  | .Array16 => true
  | .Array32 => true
  | .FixMap _ => true
  | .Map16 => true
  | .Map32 => true
  | _ => false

theorem readByte_interrupt (st : Stream) :
    readByte (Event.interrupt :: st) = readByte st := rfl

theorem readByte_error_eq {st : Stream} {e : IOError}
    (h : readByte st = .error e) : e = eofErr := by
  induction st with
  | nil =>
    simp only [readByte, Except.error.injEq] at h
    exact h.symm
  | cons ev tl ih =>
    cases ev with
    | byte b => simp [readByte] at h
    | interrupt => exact ih h

theorem readByte_consumes {st : Stream} {b : Nat} {out : Stream}
    (h : readByte st = .ok (b, out)) :
    ∃ C, st = C ++ out ∧ ∀ r, readByte (C ++ r) = .ok (b, r) := by
  induction st with
  | nil => simp [readByte] at h
  | cons ev tl ih =>
    cases ev with
    | byte b2 =>
      simp only [readByte, Except.ok.injEq, Prod.mk.injEq] at h
      obtain ⟨rfl, rfl⟩ := h
      exact ⟨[.byte b2], rfl, fun r => rfl⟩
    | interrupt =>
      obtain ⟨C, rfl, k⟩ := ih h
      exact ⟨.interrupt :: C, rfl, fun r => k r⟩

theorem readExact_error_eq {n : Nat} {st : Stream} {e : IOError}
    (h : readExact n st = .error e) : e = eofErr := by
  induction n generalizing st e with
  | zero => simp [readExact] at h
  | succ n ih =>
    rw [readExact] at h
    cases h1 : readByte st with
    | error e1 =>
      rw [h1] at h
      simp only [Except.error.injEq] at h
      exact h ▸ readByte_error_eq h1
    | ok p =>
      obtain ⟨b, st1⟩ := p
      rw [h1] at h
      dsimp only at h
      cases h2 : readExact n st1 with
      | error e2 =>
        rw [h2] at h
        simp only [Except.error.injEq] at h
        exact h ▸ ih h2
      | ok q =>
        obtain ⟨bs, st2⟩ := q
        rw [h2] at h
        simp at h

theorem readExact_consumes {n : Nat} {st : Stream} {bs : List Nat} {out : Stream}
    (h : readExact n st = .ok (bs, out)) :
    ∃ C, st = C ++ out ∧ ∀ r, readExact n (C ++ r) = .ok (bs, r) := by
  induction n generalizing st bs with
  | zero =>
    simp only [readExact, Except.ok.injEq, Prod.mk.injEq] at h
    obtain ⟨rfl, rfl⟩ := h
    exact ⟨[], rfl, fun r => rfl⟩
  | succ n ih =>
    rw [readExact] at h
    cases h1 : readByte st with
    | error e1 => rw [h1] at h; simp at h
    | ok p =>
      obtain ⟨b, st1⟩ := p
      rw [h1] at h
      dsimp only at h
      cases h2 : readExact n st1 with
      | error e2 => rw [h2] at h; simp at h
      | ok q =>
        obtain ⟨bs2, st2⟩ := q
        rw [h2] at h
        simp only [Except.ok.injEq, Prod.mk.injEq] at h
        obtain ⟨rfl, rfl⟩ := h
        obtain ⟨C1, rfl, k1⟩ := readByte_consumes h1
        obtain ⟨C2, rfl, k2⟩ := ih h2
        refine ⟨C1 ++ C2, by rw [List.append_assoc], fun r => ?_⟩
        rw [readExact, List.append_assoc, k1]
        dsimp only
        rw [k2]

theorem readExact_length {n : Nat} {st : Stream} {bs : List Nat} {out : Stream}
    (h : readExact n st = .ok (bs, out)) : bs.length = n := by
  induction n generalizing st bs with
  | zero =>
    simp only [readExact, Except.ok.injEq, Prod.mk.injEq] at h
    rw [← h.1]
    rfl
  | succ n ih =>
    rw [readExact] at h
    cases h1 : readByte st with
    | error e1 => rw [h1] at h; simp at h
    | ok p =>
      obtain ⟨b, st1⟩ := p
      rw [h1] at h
      dsimp only at h
      cases h2 : readExact n st1 with
      | error e2 => rw [h2] at h; simp at h
      | ok q =>
        obtain ⟨bs2, st2⟩ := q
        rw [h2] at h
        simp only [Except.ok.injEq, Prod.mk.injEq] at h
        obtain ⟨rfl, rfl⟩ := h
        simp [ih h2]

theorem readExact_bytes (bs : List Nat) (r : Stream) :
    readExact bs.length (bytes bs ++ r) = .ok (bs, r) := by
  induction bs with
  | nil => simp [readExact, bytes]
  | cons b tl ih =>
    have step : readExact (b :: tl).length (bytes (b :: tl) ++ r) =
        match readExact tl.length (bytes tl ++ r) with
        | .error e => .error e
        | .ok (bs2, st2) => .ok (b :: bs2, st2) := rfl
    rw [step, ih]

theorem read_marker_error_eq {st : Stream} {e : MarkerReadError}
    (h : read_marker st = .error e) : e = ⟨eofErr⟩ := by
  rw [read_marker] at h
  cases h1 : readByte st with
  | error e1 =>
    rw [h1] at h
    simp only [Except.error.injEq] at h
    rw [← h, readByte_error_eq h1]
  | ok p => obtain ⟨b, st1⟩ := p; rw [h1] at h; simp at h

theorem read_marker_consumes {st : Stream} {m : Marker} {st1 : Stream}
    (h : read_marker st = .ok (m, st1)) :
    ∃ C, st = C ++ st1 ∧ ∀ r, read_marker (C ++ r) = .ok (m, r) := by
  rw [read_marker] at h
  cases h1 : readByte st with
  | error e1 => rw [h1] at h; simp at h
  | ok p =>
    obtain ⟨b, st2⟩ := p
    rw [h1] at h
    simp only [Except.ok.injEq, Prod.mk.injEq] at h
    obtain ⟨rfl, rfl⟩ := h
    obtain ⟨C, rfl, k⟩ := readByte_consumes h1
    exact ⟨C, rfl, fun r => by rw [read_marker, k]⟩

theorem read_data_num_error_eq {w : Nat} {st : Stream} {e : ValueReadError}
    (h : read_data_num w st = .error e) : e = .InvalidDataRead eofErr := by
  rw [read_data_num] at h
  cases h1 : readExact w st with
  | error e1 =>
    rw [h1] at h
    simp only [Except.error.injEq] at h
    rw [← h, readExact_error_eq h1]
  | ok p => obtain ⟨bs, st1⟩ := p; rw [h1] at h; simp at h

theorem read_data_num_consumes {w : Nat} {st : Stream} {n : Nat} {out : Stream}
    (h : read_data_num w st = .ok (n, out)) :
    ∃ C, st = C ++ out ∧ ∀ r, read_data_num w (C ++ r) = .ok (n, r) := by
  rw [read_data_num] at h
  cases h1 : readExact w st with
  | error e1 => rw [h1] at h; simp at h
  | ok p =>
    obtain ⟨bs, st1⟩ := p
    rw [h1] at h
    simp only [Except.ok.injEq, Prod.mk.injEq] at h
    obtain ⟨rfl, rfl⟩ := h
    obtain ⟨C, rfl, k⟩ := readExact_consumes h1
    exact ⟨C, rfl, fun r => by rw [read_data_num, k]⟩

theorem read_data_int_error_eq {bits : Nat} {st : Stream} {e : ValueReadError}
    (h : read_data_int bits st = .error e) : e = .InvalidDataRead eofErr := by
  rw [read_data_int] at h
  cases h1 : read_data_num (bits / 8) st with
  | error e1 =>
    rw [h1] at h
    simp only [Except.error.injEq] at h
    rw [← h]
    exact read_data_num_error_eq h1
  | ok p => obtain ⟨n, st1⟩ := p; rw [h1] at h; simp at h

theorem read_data_int_consumes {bits : Nat} {st : Stream} {n : Int} {out : Stream}
    (h : read_data_int bits st = .ok (n, out)) :
    ∃ C, st = C ++ out ∧ ∀ r, read_data_int bits (C ++ r) = .ok (n, r) := by
  rw [read_data_int] at h
  cases h1 : read_data_num (bits / 8) st with
  | error e1 => rw [h1] at h; simp at h
  | ok p =>
    obtain ⟨n1, st1⟩ := p
    rw [h1] at h
    simp only [Except.ok.injEq, Prod.mk.injEq] at h
    obtain ⟨rfl, rfl⟩ := h
    obtain ⟨C, rfl, k⟩ := read_data_num_consumes h1
    exact ⟨C, rfl, fun r => by rw [read_data_int, k]⟩

theorem read_bin_data_error_eq {st : Stream} {len : Nat} {e : Error}
    (h : read_bin_data st len = .error e) : e = .InvalidDataRead eofErr := by
  rw [read_bin_data] at h
  cases h1 : readExact len st with
  | error e1 =>
    rw [h1] at h
    simp only [Except.error.injEq] at h
    rw [← h, readExact_error_eq h1]
  | ok p => obtain ⟨buf, st1⟩ := p; rw [h1] at h; simp at h

theorem read_bin_data_consumes {st : Stream} {len : Nat} {buf : List Nat} {out : Stream}
    (h : read_bin_data st len = .ok (buf, out)) :
    ∃ C, st = C ++ out ∧ ∀ r, read_bin_data (C ++ r) len = .ok (buf, r) := by
  rw [read_bin_data] at h
  cases h1 : readExact len st with
  | error e1 => rw [h1] at h; simp at h
  | ok p =>
    obtain ⟨buf1, st1⟩ := p
    rw [h1] at h
    simp only [Except.ok.injEq, Prod.mk.injEq] at h
    obtain ⟨rfl, rfl⟩ := h
    obtain ⟨C, rfl, k⟩ := readExact_consumes h1
    exact ⟨C, rfl, fun r => by rw [read_bin_data, k]⟩

theorem read_bin_data_length {st : Stream} {len : Nat} {buf : List Nat} {out : Stream}
    (h : read_bin_data st len = .ok (buf, out)) : buf.length = len := by
  rw [read_bin_data] at h
  cases h1 : readExact len st with
  | error e1 => rw [h1] at h; simp at h
  | ok p =>
    obtain ⟨buf1, st1⟩ := p
    rw [h1] at h
    simp only [Except.ok.injEq, Prod.mk.injEq] at h
    obtain ⟨rfl, rfl⟩ := h
    exact readExact_length h1

theorem read_str_data_error_eq {st : Stream} {len : Nat} {e : Error}
    (h : read_str_data st len = .error e) : e = .InvalidDataRead eofErr := by
  rw [read_str_data] at h
  cases h1 : read_bin_data st len with
  | error e1 =>
    rw [h1] at h
    simp only [Except.error.injEq] at h
    rw [← h]
    exact read_bin_data_error_eq h1
  | ok p =>
    obtain ⟨buf, st1⟩ := p
    rw [h1] at h
    dsimp only at h
    cases h2 : utf8ValidUpTo buf with
    | none => rw [h2] at h; simp at h
    | some off => rw [h2] at h; simp at h

theorem read_str_data_consumes {st : Stream} {len : Nat} {res : Utf8String} {out : Stream}
    (h : read_str_data st len = .ok (res, out)) :
    ∃ C, st = C ++ out ∧ ∀ r, read_str_data (C ++ r) len = .ok (res, r) := by
  rw [read_str_data] at h
  cases h1 : read_bin_data st len with
  | error e1 => rw [h1] at h; simp at h
  | ok p =>
    obtain ⟨buf, st1⟩ := p
    rw [h1] at h
    dsimp only at h
    obtain ⟨C, rfl, k⟩ := read_bin_data_consumes h1
    cases h2 : utf8ValidUpTo buf with
    | none =>
      rw [h2] at h
      simp only [Except.ok.injEq, Prod.mk.injEq] at h
      obtain ⟨rfl, rfl⟩ := h
      exact ⟨C, rfl, fun r => by rw [read_str_data, k]; dsimp only; rw [h2]⟩
    | some off =>
      rw [h2] at h
      simp only [Except.ok.injEq, Prod.mk.injEq] at h
      obtain ⟨rfl, rfl⟩ := h
      exact ⟨C, rfl, fun r => by rw [read_str_data, k]; dsimp only; rw [h2]⟩

theorem read_ext_body_error_eq {st : Stream} {len : Nat} {e : Error}
    (h : read_ext_body st len = .error e) : e = .InvalidDataRead eofErr := by
  rw [read_ext_body] at h
  cases h1 : read_data_i8 st with
  | error e1 =>
    rw [h1] at h
    simp only [Except.error.injEq] at h
    rw [← h, read_data_int_error_eq h1]
    rfl
  | ok p =>
    obtain ⟨ty, st1⟩ := p
    rw [h1] at h
    dsimp only at h
    cases h2 : read_bin_data st1 len with
    | error e2 =>
      rw [h2] at h
      simp only [Except.error.injEq] at h
      rw [← h]
      exact read_bin_data_error_eq h2
    | ok q => obtain ⟨buf, st2⟩ := q; rw [h2] at h; simp at h

theorem read_ext_body_consumes {st : Stream} {len : Nat} {ty : Int} {buf : List Nat}
    {out : Stream} (h : read_ext_body st len = .ok ((ty, buf), out)) :
    ∃ C, st = C ++ out ∧ ∀ r, read_ext_body (C ++ r) len = .ok ((ty, buf), r) := by
  rw [read_ext_body] at h
  cases h1 : read_data_i8 st with
  | error e1 => rw [h1] at h; simp at h
  | ok p =>
    obtain ⟨ty1, st1⟩ := p
    rw [h1] at h
    dsimp only at h
    cases h2 : read_bin_data st1 len with
    | error e2 => rw [h2] at h; simp at h
    | ok q =>
      obtain ⟨buf1, st2⟩ := q
      rw [h2] at h
      simp only [Except.ok.injEq, Prod.mk.injEq] at h
      obtain ⟨⟨rfl, rfl⟩, rfl⟩ := h
      obtain ⟨C1, rfl, k1⟩ := read_data_int_consumes h1
      obtain ⟨C2, rfl, k2⟩ := read_bin_data_consumes h2
      refine ⟨C1 ++ C2, by rw [List.append_assoc], fun r => ?_⟩
      rw [read_ext_body, List.append_assoc]
      rw [show read_data_i8 (C1 ++ (C2 ++ r)) = .ok (ty1, C2 ++ r) from k1 _]
      dsimp only
      rw [k2]

theorem read_ext_body_length {st : Stream} {len : Nat} {ty : Int} {buf : List Nat}
    {out : Stream} (h : read_ext_body st len = .ok ((ty, buf), out)) :
    buf.length = len := by
  rw [read_ext_body] at h
  cases h1 : read_data_i8 st with
  | error e1 => rw [h1] at h; simp at h
  | ok p =>
    obtain ⟨ty1, st1⟩ := p
    rw [h1] at h
    dsimp only at h
    cases h2 : read_bin_data st1 len with
    | error e2 => rw [h2] at h; simp at h
    | ok q =>
      obtain ⟨buf1, st2⟩ := q
      rw [h2] at h
      simp only [Except.ok.injEq, Prod.mk.injEq] at h
      obtain ⟨⟨rfl, rfl⟩, rfl⟩ := h
      exact read_bin_data_length h2

theorem read_array_data_master (rv : Stream → Option (Except Error (Value × Stream)))
    (hrv : RVGood rv) :
    ∀ (len : Nat) (st : Stream) (r : Except Error (List Value × Stream)),
      read_array_data rv st len = some r →
      (∀ e, r = .error e → ErrShape e) ∧
      (∀ vs out, r = .ok (vs, out) → vs.length = len ∧
        ∃ C, st = C ++ out ∧
          ∀ rest, read_array_data rv (C ++ rest) len = some (.ok (vs, rest))) := by
  intro len
  induction len with
  | zero =>
    intro st r h
    rw [read_array_data] at h
    simp only [Option.some.injEq] at h
    subst h
    refine ⟨fun e he => by simp at he, fun vs out hok => ?_⟩
    simp only [Except.ok.injEq, Prod.mk.injEq] at hok
    obtain ⟨rfl, rfl⟩ := hok
    exact ⟨rfl, [], rfl, fun rest => by rw [read_array_data, List.nil_append]⟩
  | succ len ih =>
    intro st r h
    rw [read_array_data] at h
    cases h1 : rv st with
    | none => rw [h1] at h; simp at h
    | some x =>
      rw [h1] at h
      cases x with
      | error e1 =>
        dsimp only at h
        simp only [Option.some.injEq] at h
        subst h
        refine ⟨fun e he => ?_, fun vs out hok => by simp at hok⟩
        simp only [Except.error.injEq] at he
        subst he
        exact (hrv st _ h1).1 e1 rfl
      | ok p =>
        obtain ⟨v, st1⟩ := p
        dsimp only at h
        cases h2 : read_array_data rv st1 len with
        | none => rw [h2] at h; simp at h
        | some y =>
          rw [h2] at h
          cases y with
          | error e2 =>
            dsimp only at h
            simp only [Option.some.injEq] at h
            subst h
            refine ⟨fun e he => ?_, fun vs out hok => by simp at hok⟩
            simp only [Except.error.injEq] at he
            subst he
            exact (ih st1 _ h2).1 e2 rfl
          | ok q =>
            obtain ⟨vs2, st2⟩ := q
            dsimp only at h
            simp only [Option.some.injEq] at h
            subst h
            refine ⟨fun e he => by simp at he, fun vs out hok => ?_⟩
            simp only [Except.ok.injEq, Prod.mk.injEq] at hok
            obtain ⟨rfl, rfl⟩ := hok
            obtain ⟨hlen, C2, rfl, k2⟩ := ((ih st1 _ h2).2 vs2 st2 rfl)
            obtain ⟨C1, rfl, k1⟩ := ((hrv _ _ h1).2 v (C2 ++ st2) rfl)
            refine ⟨by simp [hlen], C1 ++ C2, by rw [List.append_assoc], fun rest => ?_⟩
            rw [read_array_data, List.append_assoc]
            rw [show rv (C1 ++ (C2 ++ rest)) = some (.ok (v, C2 ++ rest)) from k1 _]
            dsimp only
            rw [k2]

theorem read_map_data_master (rv : Stream → Option (Except Error (Value × Stream)))
    (hrv : RVGood rv) :
    ∀ (len : Nat) (st : Stream) (r : Except Error (List (Value × Value) × Stream)),
      read_map_data rv st len = some r →
      (∀ e, r = .error e → ErrShape e) ∧
      (∀ ps out, r = .ok (ps, out) → ps.length = len ∧
        ∃ C, st = C ++ out ∧
          ∀ rest, read_map_data rv (C ++ rest) len = some (.ok (ps, rest))) := by
  intro len
  induction len with
  | zero =>
    intro st r h
    rw [read_map_data] at h
    simp only [Option.some.injEq] at h
    subst h
    refine ⟨fun e he => by simp at he, fun ps out hok => ?_⟩
    simp only [Except.ok.injEq, Prod.mk.injEq] at hok
    obtain ⟨rfl, rfl⟩ := hok
    exact ⟨rfl, [], rfl, fun rest => by rw [read_map_data, List.nil_append]⟩
  | succ len ih =>
    intro st r h
    rw [read_map_data] at h
    cases h1 : rv st with
    | none => rw [h1] at h; simp at h
    | some x =>
      rw [h1] at h
      cases x with
      | error e1 =>
        dsimp only at h
        simp only [Option.some.injEq] at h
        subst h
        refine ⟨fun e he => ?_, fun ps out hok => by simp at hok⟩
        simp only [Except.error.injEq] at he
        subst he
        exact (hrv st _ h1).1 e1 rfl
      | ok p =>
        obtain ⟨k, st1⟩ := p
        dsimp only at h
        cases h2 : rv st1 with
        | none => rw [h2] at h; simp at h
        | some y =>
          rw [h2] at h
          cases y with
          | error e2 =>
            dsimp only at h
            simp only [Option.some.injEq] at h
            subst h
            refine ⟨fun e he => ?_, fun ps out hok => by simp at hok⟩
            simp only [Except.error.injEq] at he
            subst he
            exact (hrv st1 _ h2).1 e2 rfl
          | ok q =>
            obtain ⟨v, st2⟩ := q
            dsimp only at h
            cases h3 : read_map_data rv st2 len with
            | none => rw [h3] at h; simp at h
            | some z =>
              rw [h3] at h
              cases z with
              | error e3 =>
                dsimp only at h
                simp only [Option.some.injEq] at h
                subst h
                refine ⟨fun e he => ?_, fun ps out hok => by simp at hok⟩
                simp only [Except.error.injEq] at he
                subst he
                exact (ih st2 _ h3).1 e3 rfl
              | ok w =>
                obtain ⟨ps2, st3⟩ := w
                dsimp only at h
                simp only [Option.some.injEq] at h
                subst h
                refine ⟨fun e he => by simp at he, fun ps out hok => ?_⟩
                simp only [Except.ok.injEq, Prod.mk.injEq] at hok
                obtain ⟨rfl, rfl⟩ := hok
                obtain ⟨hlen, C3, rfl, k3⟩ := ((ih st2 _ h3).2 ps2 st3 rfl)
                obtain ⟨C2, rfl, k2⟩ := ((hrv _ _ h2).2 v (C3 ++ st3) rfl)
                obtain ⟨C1, rfl, k1⟩ := ((hrv _ _ h1).2 k (C2 ++ (C3 ++ st3)) rfl)
                refine ⟨by simp [hlen], C1 ++ (C2 ++ C3), by simp [List.append_assoc], fun rest => ?_⟩
                rw [read_map_data]
                rw [show (C1 ++ (C2 ++ C3)) ++ rest = C1 ++ (C2 ++ (C3 ++ rest)) by simp [List.append_assoc]]
                rw [show rv (C1 ++ (C2 ++ (C3 ++ rest))) = some (.ok (k, C2 ++ (C3 ++ rest))) from k1 _]
                dsimp only
                rw [show rv (C2 ++ (C3 ++ rest)) = some (.ok (v, C3 ++ rest)) from k2 _]
                dsimp only
                rw [k3]

/-- Master property of the decoder: every produced error wraps the end of
input I/O error in one of the two variants, and every success consumed a
determined prefix of the input whose decode is insensitive to what follows. -/
theorem read_value_good : ∀ fuel, RVGood (read_value fuel) := by
  intro fuel
  induction fuel with
  | zero =>
    intro st r h
    rw [read_value] at h
    exact absurd h (by simp)
  | succ fuel ih =>
    have harr := read_array_data_master (read_value fuel) ih
    have hmap := read_map_data_master (read_value fuel) ih
    intro st r h
    rw [read_value] at h
    cases hm : read_marker st with
    | error e1 =>
      rw [hm] at h
      dsimp only at h
      simp only [Option.some.injEq] at h
      subst h
      refine ⟨fun e he => ?_, fun v out hok => by simp at hok⟩
      simp only [Except.error.injEq] at he
      subst he
      exact Or.inl (by simp only [read_marker_error_eq hm, Error.fromMarkerReadError])
    | ok p =>
      obtain ⟨m, st1⟩ := p
      rw [hm] at h
      dsimp only at h
      obtain ⟨C0, rfl, k0⟩ := read_marker_consumes hm
      cases m with
      | Null =>
        dsimp only at h
        simp only [Option.some.injEq] at h
        subst h
        refine ⟨fun e he => by simp at he, fun v out hok => ?_⟩
        simp only [Except.ok.injEq, Prod.mk.injEq] at hok
        obtain ⟨rfl, rfl⟩ := hok
        exact ⟨C0, rfl, fun rest => by rw [read_value, k0]⟩
      | True =>
        dsimp only at h
        simp only [Option.some.injEq] at h
        subst h
        refine ⟨fun e he => by simp at he, fun v out hok => ?_⟩
        simp only [Except.ok.injEq, Prod.mk.injEq] at hok
        obtain ⟨rfl, rfl⟩ := hok
        exact ⟨C0, rfl, fun rest => by rw [read_value, k0]⟩
      | False =>
        dsimp only at h
        simp only [Option.some.injEq] at h
        subst h
        refine ⟨fun e he => by simp at he, fun v out hok => ?_⟩
        simp only [Except.ok.injEq, Prod.mk.injEq] at hok
        obtain ⟨rfl, rfl⟩ := hok
        exact ⟨C0, rfl, fun rest => by rw [read_value, k0]⟩
      | FixPos val =>
        dsimp only at h
        simp only [Option.some.injEq] at h
        subst h
        refine ⟨fun e he => by simp at he, fun v out hok => ?_⟩
        simp only [Except.ok.injEq, Prod.mk.injEq] at hok
        obtain ⟨rfl, rfl⟩ := hok
        exact ⟨C0, rfl, fun rest => by rw [read_value, k0]⟩
      | FixNeg val =>
        dsimp only at h
        simp only [Option.some.injEq] at h
        subst h
        refine ⟨fun e he => by simp at he, fun v out hok => ?_⟩
        simp only [Except.ok.injEq, Prod.mk.injEq] at hok
        obtain ⟨rfl, rfl⟩ := hok
        exact ⟨C0, rfl, fun rest => by rw [read_value, k0]⟩
      | U8 =>
        dsimp only at h
        cases h1 : read_data_u8 st1 with
        | error e1 =>
          rw [h1] at h
          dsimp only at h
          simp only [Option.some.injEq] at h
          subst h
          refine ⟨fun e he => ?_, fun v out hok => by simp at hok⟩
          simp only [Except.error.injEq] at he
          subst he
          exact Or.inr (by simp only [read_data_num_error_eq h1, Error.fromValueReadError])
        | ok p1 =>
          obtain ⟨n, st2⟩ := p1
          rw [h1] at h
          dsimp only at h
          simp only [Option.some.injEq] at h
          subst h
          refine ⟨fun e he => by simp at he, fun v out hok => ?_⟩
          simp only [Except.ok.injEq, Prod.mk.injEq] at hok
          obtain ⟨rfl, rfl⟩ := hok
          obtain ⟨C1, rfl, k1⟩ := read_data_num_consumes h1
          refine ⟨C0 ++ C1, by rw [List.append_assoc], fun rest => ?_⟩
          rw [read_value, List.append_assoc, k0]
          dsimp only
          rw [show read_data_u8 (C1 ++ rest) = .ok (n, rest) from k1 rest]
      | U16 =>
        dsimp only at h
        cases h1 : read_data_u16 st1 with
        | error e1 =>
          rw [h1] at h
          dsimp only at h
          simp only [Option.some.injEq] at h
          subst h
          refine ⟨fun e he => ?_, fun v out hok => by simp at hok⟩
          simp only [Except.error.injEq] at he
          subst he
          exact Or.inr (by simp only [read_data_num_error_eq h1, Error.fromValueReadError])
        | ok p1 =>
          obtain ⟨n, st2⟩ := p1
          rw [h1] at h
          dsimp only at h
          simp only [Option.some.injEq] at h
          subst h
          refine ⟨fun e he => by simp at he, fun v out hok => ?_⟩
          simp only [Except.ok.injEq, Prod.mk.injEq] at hok
          obtain ⟨rfl, rfl⟩ := hok
          obtain ⟨C1, rfl, k1⟩ := read_data_num_consumes h1
          refine ⟨C0 ++ C1, by rw [List.append_assoc], fun rest => ?_⟩
          rw [read_value, List.append_assoc, k0]
          dsimp only
          rw [show read_data_u16 (C1 ++ rest) = .ok (n, rest) from k1 rest]
      | U32 =>
        dsimp only at h
        cases h1 : read_data_u32 st1 with
        | error e1 =>
          rw [h1] at h
          dsimp only at h
          simp only [Option.some.injEq] at h
          subst h
          refine ⟨fun e he => ?_, fun v out hok => by simp at hok⟩
          simp only [Except.error.injEq] at he
          subst he
          exact Or.inr (by simp only [read_data_num_error_eq h1, Error.fromValueReadError])
        | ok p1 =>
          obtain ⟨n, st2⟩ := p1
          rw [h1] at h
          dsimp only at h
          simp only [Option.some.injEq] at h
          subst h
          refine ⟨fun e he => by simp at he, fun v out hok => ?_⟩
          simp only [Except.ok.injEq, Prod.mk.injEq] at hok
          obtain ⟨rfl, rfl⟩ := hok
          obtain ⟨C1, rfl, k1⟩ := read_data_num_consumes h1
          refine ⟨C0 ++ C1, by rw [List.append_assoc], fun rest => ?_⟩
          rw [read_value, List.append_assoc, k0]
          dsimp only
          rw [show read_data_u32 (C1 ++ rest) = .ok (n, rest) from k1 rest]
      | U64 =>
        dsimp only at h
        cases h1 : read_data_u64 st1 with
        | error e1 =>
          rw [h1] at h
          dsimp only at h
          simp only [Option.some.injEq] at h
          subst h
          refine ⟨fun e he => ?_, fun v out hok => by simp at hok⟩
          simp only [Except.error.injEq] at he
          subst he
          exact Or.inr (by simp only [read_data_num_error_eq h1, Error.fromValueReadError])
        | ok p1 =>
          obtain ⟨n, st2⟩ := p1
          rw [h1] at h
          dsimp only at h
          simp only [Option.some.injEq] at h
          subst h
          refine ⟨fun e he => by simp at he, fun v out hok => ?_⟩
          simp only [Except.ok.injEq, Prod.mk.injEq] at hok
          obtain ⟨rfl, rfl⟩ := hok
          obtain ⟨C1, rfl, k1⟩ := read_data_num_consumes h1
          refine ⟨C0 ++ C1, by rw [List.append_assoc], fun rest => ?_⟩
          rw [read_value, List.append_assoc, k0]
          dsimp only
          rw [show read_data_u64 (C1 ++ rest) = .ok (n, rest) from k1 rest]
      | I8 =>
        dsimp only at h
        cases h1 : read_data_i8 st1 with
        | error e1 =>
          rw [h1] at h
          dsimp only at h
          simp only [Option.some.injEq] at h
          subst h
          refine ⟨fun e he => ?_, fun v out hok => by simp at hok⟩
          simp only [Except.error.injEq] at he
          subst he
          exact Or.inr (by simp only [read_data_int_error_eq h1, Error.fromValueReadError])
        | ok p1 =>
          obtain ⟨n, st2⟩ := p1
          rw [h1] at h
          dsimp only at h
          simp only [Option.some.injEq] at h
          subst h
          refine ⟨fun e he => by simp at he, fun v out hok => ?_⟩
          simp only [Except.ok.injEq, Prod.mk.injEq] at hok
          obtain ⟨rfl, rfl⟩ := hok
          obtain ⟨C1, rfl, k1⟩ := read_data_int_consumes h1
          refine ⟨C0 ++ C1, by rw [List.append_assoc], fun rest => ?_⟩
          rw [read_value, List.append_assoc, k0]
          dsimp only
          rw [show read_data_i8 (C1 ++ rest) = .ok (n, rest) from k1 rest]
      | I16 =>
        dsimp only at h
        cases h1 : read_data_i16 st1 with
        | error e1 =>
          rw [h1] at h
          dsimp only at h
          simp only [Option.some.injEq] at h
          subst h
          refine ⟨fun e he => ?_, fun v out hok => by simp at hok⟩
          simp only [Except.error.injEq] at he
          subst he
          exact Or.inr (by simp only [read_data_int_error_eq h1, Error.fromValueReadError])
        | ok p1 =>
          obtain ⟨n, st2⟩ := p1
          rw [h1] at h
          dsimp only at h
          simp only [Option.some.injEq] at h
          subst h
          refine ⟨fun e he => by simp at he, fun v out hok => ?_⟩
          simp only [Except.ok.injEq, Prod.mk.injEq] at hok
          obtain ⟨rfl, rfl⟩ := hok
          obtain ⟨C1, rfl, k1⟩ := read_data_int_consumes h1
          refine ⟨C0 ++ C1, by rw [List.append_assoc], fun rest => ?_⟩
          rw [read_value, List.append_assoc, k0]
          dsimp only
          rw [show read_data_i16 (C1 ++ rest) = .ok (n, rest) from k1 rest]
      | I32 =>
        dsimp only at h
        cases h1 : read_data_i32 st1 with
        | error e1 =>
          rw [h1] at h
          dsimp only at h
          simp only [Option.some.injEq] at h
          subst h
          refine ⟨fun e he => ?_, fun v out hok => by simp at hok⟩
          simp only [Except.error.injEq] at he
          subst he
          exact Or.inr (by simp only [read_data_int_error_eq h1, Error.fromValueReadError])
        | ok p1 =>
          obtain ⟨n, st2⟩ := p1
          rw [h1] at h
          dsimp only at h
          simp only [Option.some.injEq] at h
          subst h
          refine ⟨fun e he => by simp at he, fun v out hok => ?_⟩
          simp only [Except.ok.injEq, Prod.mk.injEq] at hok
          obtain ⟨rfl, rfl⟩ := hok
          obtain ⟨C1, rfl, k1⟩ := read_data_int_consumes h1
          refine ⟨C0 ++ C1, by rw [List.append_assoc], fun rest => ?_⟩
          rw [read_value, List.append_assoc, k0]
          dsimp only
          rw [show read_data_i32 (C1 ++ rest) = .ok (n, rest) from k1 rest]
      | I64 =>
        dsimp only at h
        cases h1 : read_data_i64 st1 with
        | error e1 =>
          rw [h1] at h
          dsimp only at h
          simp only [Option.some.injEq] at h
          subst h
          refine ⟨fun e he => ?_, fun v out hok => by simp at hok⟩
          simp only [Except.error.injEq] at he
          subst he
          exact Or.inr (by simp only [read_data_int_error_eq h1, Error.fromValueReadError])
        | ok p1 =>
          obtain ⟨n, st2⟩ := p1
          rw [h1] at h
          dsimp only at h
          simp only [Option.some.injEq] at h
          subst h
          refine ⟨fun e he => by simp at he, fun v out hok => ?_⟩
          simp only [Except.ok.injEq, Prod.mk.injEq] at hok
          obtain ⟨rfl, rfl⟩ := hok
          obtain ⟨C1, rfl, k1⟩ := read_data_int_consumes h1
          refine ⟨C0 ++ C1, by rw [List.append_assoc], fun rest => ?_⟩
          rw [read_value, List.append_assoc, k0]
          dsimp only
          rw [show read_data_i64 (C1 ++ rest) = .ok (n, rest) from k1 rest]
      | F32 =>
        dsimp only at h
        cases h1 : read_data_f32 st1 with
        | error e1 =>
          rw [h1] at h
          dsimp only at h
          simp only [Option.some.injEq] at h
          subst h
          refine ⟨fun e he => ?_, fun v out hok => by simp at hok⟩
          simp only [Except.error.injEq] at he
          subst he
          exact Or.inr (by simp only [read_data_num_error_eq h1, Error.fromValueReadError])
        | ok p1 =>
          obtain ⟨n, st2⟩ := p1
          rw [h1] at h
          dsimp only at h
          simp only [Option.some.injEq] at h
          subst h
          refine ⟨fun e he => by simp at he, fun v out hok => ?_⟩
          simp only [Except.ok.injEq, Prod.mk.injEq] at hok
          obtain ⟨rfl, rfl⟩ := hok
          obtain ⟨C1, rfl, k1⟩ := read_data_num_consumes h1
          refine ⟨C0 ++ C1, by rw [List.append_assoc], fun rest => ?_⟩
          rw [read_value, List.append_assoc, k0]
          dsimp only
          rw [show read_data_f32 (C1 ++ rest) = .ok (n, rest) from k1 rest]
      | F64 =>
        dsimp only at h
        cases h1 : read_data_f64 st1 with
        | error e1 =>
          rw [h1] at h
          dsimp only at h
          simp only [Option.some.injEq] at h
          subst h
          refine ⟨fun e he => ?_, fun v out hok => by simp at hok⟩
          simp only [Except.error.injEq] at he
          subst he
          exact Or.inr (by simp only [read_data_num_error_eq h1, Error.fromValueReadError])
        | ok p1 =>
          obtain ⟨n, st2⟩ := p1
          rw [h1] at h
          dsimp only at h
          simp only [Option.some.injEq] at h
          subst h
          refine ⟨fun e he => by simp at he, fun v out hok => ?_⟩
          simp only [Except.ok.injEq, Prod.mk.injEq] at hok
          obtain ⟨rfl, rfl⟩ := hok
          obtain ⟨C1, rfl, k1⟩ := read_data_num_consumes h1
          refine ⟨C0 ++ C1, by rw [List.append_assoc], fun rest => ?_⟩
          rw [read_value, List.append_assoc, k0]
          dsimp only
          rw [show read_data_f64 (C1 ++ rest) = .ok (n, rest) from k1 rest]
      | FixStr len =>
        dsimp only at h
        cases h1 : read_str_data st1 len with
        | error e1 =>
          rw [h1] at h
          dsimp only at h
          simp only [Option.some.injEq] at h
          subst h
          refine ⟨fun e he => ?_, fun v out hok => by simp at hok⟩
          simp only [Except.error.injEq] at he
          subst he
          exact Or.inr (read_str_data_error_eq h1)
        | ok p1 =>
          obtain ⟨res, st2⟩ := p1
          rw [h1] at h
          dsimp only at h
          simp only [Option.some.injEq] at h
          subst h
          refine ⟨fun e he => by simp at he, fun v out hok => ?_⟩
          simp only [Except.ok.injEq, Prod.mk.injEq] at hok
          obtain ⟨rfl, rfl⟩ := hok
          obtain ⟨C1, rfl, k1⟩ := read_str_data_consumes h1
          refine ⟨C0 ++ C1, by rw [List.append_assoc], fun rest => ?_⟩
          rw [read_value, List.append_assoc, k0]
          dsimp only
          rw [show read_str_data (C1 ++ rest) len = .ok (res, rest) from k1 rest]
      | Str8 =>
        dsimp only at h
        cases h1 : read_data_u8 st1 with
        | error e1 =>
          rw [h1] at h
          dsimp only at h
          simp only [Option.some.injEq] at h
          subst h
          refine ⟨fun e he => ?_, fun v out hok => by simp at hok⟩
          simp only [Except.error.injEq] at he
          subst he
          exact Or.inr (by simp only [read_data_num_error_eq h1, Error.fromValueReadError])
        | ok p1 =>
          obtain ⟨len, st2⟩ := p1
          rw [h1] at h
          dsimp only at h
          cases h2 : read_str_data st2 len with
          | error e2 =>
            rw [h2] at h
            dsimp only at h
            simp only [Option.some.injEq] at h
            subst h
            refine ⟨fun e he => ?_, fun v out hok => by simp at hok⟩
            simp only [Except.error.injEq] at he
            subst he
            exact Or.inr (read_str_data_error_eq h2)
          | ok p2 =>
            obtain ⟨res, st3⟩ := p2
            rw [h2] at h
            dsimp only at h
            simp only [Option.some.injEq] at h
            subst h
            refine ⟨fun e he => by simp at he, fun v out hok => ?_⟩
            simp only [Except.ok.injEq, Prod.mk.injEq] at hok
            obtain ⟨rfl, rfl⟩ := hok
            obtain ⟨C1, rfl, k1⟩ := read_data_num_consumes h1
            obtain ⟨C2, rfl, k2⟩ := read_str_data_consumes h2
            refine ⟨C0 ++ (C1 ++ C2), by simp [List.append_assoc], fun rest => ?_⟩
            rw [read_value]
            rw [show (C0 ++ (C1 ++ C2)) ++ rest = C0 ++ (C1 ++ (C2 ++ rest)) by simp [List.append_assoc]]
            rw [k0]
            dsimp only
            rw [show read_data_u8 (C1 ++ (C2 ++ rest)) = .ok (len, C2 ++ rest) from k1 _]
            dsimp only
            rw [show read_str_data (C2 ++ rest) len = .ok (res, rest) from k2 rest]
      | Str16 =>
        dsimp only at h
        cases h1 : read_data_u16 st1 with
        | error e1 =>
          rw [h1] at h
          dsimp only at h
          simp only [Option.some.injEq] at h
          subst h
          refine ⟨fun e he => ?_, fun v out hok => by simp at hok⟩
          simp only [Except.error.injEq] at he
          subst he
          exact Or.inr (by simp only [read_data_num_error_eq h1, Error.fromValueReadError])
        | ok p1 =>
          obtain ⟨len, st2⟩ := p1
          rw [h1] at h
          dsimp only at h
          cases h2 : read_str_data st2 len with
          | error e2 =>
            rw [h2] at h
            dsimp only at h
            simp only [Option.some.injEq] at h
            subst h
            refine ⟨fun e he => ?_, fun v out hok => by simp at hok⟩
            simp only [Except.error.injEq] at he
            subst he
            exact Or.inr (read_str_data_error_eq h2)
          | ok p2 =>
            obtain ⟨res, st3⟩ := p2
            rw [h2] at h
            dsimp only at h
            simp only [Option.some.injEq] at h
            subst h
            refine ⟨fun e he => by simp at he, fun v out hok => ?_⟩
            simp only [Except.ok.injEq, Prod.mk.injEq] at hok
            obtain ⟨rfl, rfl⟩ := hok
            obtain ⟨C1, rfl, k1⟩ := read_data_num_consumes h1
            obtain ⟨C2, rfl, k2⟩ := read_str_data_consumes h2
            refine ⟨C0 ++ (C1 ++ C2), by simp [List.append_assoc], fun rest => ?_⟩
            rw [read_value]
            rw [show (C0 ++ (C1 ++ C2)) ++ rest = C0 ++ (C1 ++ (C2 ++ rest)) by simp [List.append_assoc]]
            rw [k0]
            dsimp only
            rw [show read_data_u16 (C1 ++ (C2 ++ rest)) = .ok (len, C2 ++ rest) from k1 _]
            dsimp only
            rw [show read_str_data (C2 ++ rest) len = .ok (res, rest) from k2 rest]
      | Str32 =>
        dsimp only at h
        cases h1 : read_data_u32 st1 with
        | error e1 =>
          rw [h1] at h
          dsimp only at h
          simp only [Option.some.injEq] at h
          subst h
          refine ⟨fun e he => ?_, fun v out hok => by simp at hok⟩
          simp only [Except.error.injEq] at he
          subst he
          exact Or.inr (by simp only [read_data_num_error_eq h1, Error.fromValueReadError])
        | ok p1 =>
          obtain ⟨len, st2⟩ := p1
          rw [h1] at h
          dsimp only at h
          cases h2 : read_str_data st2 len with
          | error e2 =>
            rw [h2] at h
            dsimp only at h
            simp only [Option.some.injEq] at h
            subst h
            refine ⟨fun e he => ?_, fun v out hok => by simp at hok⟩
            simp only [Except.error.injEq] at he
            subst he
            exact Or.inr (read_str_data_error_eq h2)
          | ok p2 =>
            obtain ⟨res, st3⟩ := p2
            rw [h2] at h
            dsimp only at h
            simp only [Option.some.injEq] at h
            subst h
            refine ⟨fun e he => by simp at he, fun v out hok => ?_⟩
            simp only [Except.ok.injEq, Prod.mk.injEq] at hok
            obtain ⟨rfl, rfl⟩ := hok
            obtain ⟨C1, rfl, k1⟩ := read_data_num_consumes h1
            obtain ⟨C2, rfl, k2⟩ := read_str_data_consumes h2
            refine ⟨C0 ++ (C1 ++ C2), by simp [List.append_assoc], fun rest => ?_⟩
            rw [read_value]
            rw [show (C0 ++ (C1 ++ C2)) ++ rest = C0 ++ (C1 ++ (C2 ++ rest)) by simp [List.append_assoc]]
            rw [k0]
            dsimp only
            rw [show read_data_u32 (C1 ++ (C2 ++ rest)) = .ok (len, C2 ++ rest) from k1 _]
            dsimp only
            rw [show read_str_data (C2 ++ rest) len = .ok (res, rest) from k2 rest]
      | Bin8 =>
        dsimp only at h
        cases h1 : read_data_u8 st1 with
        | error e1 =>
          rw [h1] at h
          dsimp only at h
          simp only [Option.some.injEq] at h
          subst h
          refine ⟨fun e he => ?_, fun v out hok => by simp at hok⟩
          simp only [Except.error.injEq] at he
          subst he
          exact Or.inr (by simp only [read_data_num_error_eq h1, Error.fromValueReadError])
        | ok p1 =>
          obtain ⟨len, st2⟩ := p1
          rw [h1] at h
          dsimp only at h
          cases h2 : read_bin_data st2 len with
          | error e2 =>
            rw [h2] at h
            dsimp only at h
            simp only [Option.some.injEq] at h
            subst h
            refine ⟨fun e he => ?_, fun v out hok => by simp at hok⟩
            simp only [Except.error.injEq] at he
            subst he
            exact Or.inr (read_bin_data_error_eq h2)
          | ok p2 =>
            obtain ⟨buf, st3⟩ := p2
            rw [h2] at h
            dsimp only at h
            simp only [Option.some.injEq] at h
            subst h
            refine ⟨fun e he => by simp at he, fun v out hok => ?_⟩
            simp only [Except.ok.injEq, Prod.mk.injEq] at hok
            obtain ⟨rfl, rfl⟩ := hok
            obtain ⟨C1, rfl, k1⟩ := read_data_num_consumes h1
            obtain ⟨C2, rfl, k2⟩ := read_bin_data_consumes h2
            refine ⟨C0 ++ (C1 ++ C2), by simp [List.append_assoc], fun rest => ?_⟩
            rw [read_value]
            rw [show (C0 ++ (C1 ++ C2)) ++ rest = C0 ++ (C1 ++ (C2 ++ rest)) by simp [List.append_assoc]]
            rw [k0]
            dsimp only
            rw [show read_data_u8 (C1 ++ (C2 ++ rest)) = .ok (len, C2 ++ rest) from k1 _]
            dsimp only
            rw [show read_bin_data (C2 ++ rest) len = .ok (buf, rest) from k2 rest]
      | Bin16 =>
        dsimp only at h
        cases h1 : read_data_u16 st1 with
        | error e1 =>
          rw [h1] at h
          dsimp only at h
          simp only [Option.some.injEq] at h
          subst h
          refine ⟨fun e he => ?_, fun v out hok => by simp at hok⟩
          simp only [Except.error.injEq] at he
          subst he
          exact Or.inr (by simp only [read_data_num_error_eq h1, Error.fromValueReadError])
        | ok p1 =>
          obtain ⟨len, st2⟩ := p1
          rw [h1] at h
          dsimp only at h
          cases h2 : read_bin_data st2 len with
          | error e2 =>
            rw [h2] at h
            dsimp only at h
            simp only [Option.some.injEq] at h
            subst h
            refine ⟨fun e he => ?_, fun v out hok => by simp at hok⟩
            simp only [Except.error.injEq] at he
            subst he
            exact Or.inr (read_bin_data_error_eq h2)
          | ok p2 =>
            obtain ⟨buf, st3⟩ := p2
            rw [h2] at h
            dsimp only at h
            simp only [Option.some.injEq] at h
            subst h
            refine ⟨fun e he => by simp at he, fun v out hok => ?_⟩
            simp only [Except.ok.injEq, Prod.mk.injEq] at hok
            obtain ⟨rfl, rfl⟩ := hok
            obtain ⟨C1, rfl, k1⟩ := read_data_num_consumes h1
            obtain ⟨C2, rfl, k2⟩ := read_bin_data_consumes h2
            refine ⟨C0 ++ (C1 ++ C2), by simp [List.append_assoc], fun rest => ?_⟩
            rw [read_value]
            rw [show (C0 ++ (C1 ++ C2)) ++ rest = C0 ++ (C1 ++ (C2 ++ rest)) by simp [List.append_assoc]]
            rw [k0]
            dsimp only
            rw [show read_data_u16 (C1 ++ (C2 ++ rest)) = .ok (len, C2 ++ rest) from k1 _]
            dsimp only
            rw [show read_bin_data (C2 ++ rest) len = .ok (buf, rest) from k2 rest]
      | Bin32 =>
        dsimp only at h
        cases h1 : read_data_u32 st1 with
        | error e1 =>
          rw [h1] at h
          dsimp only at h
          simp only [Option.some.injEq] at h
          subst h
          refine ⟨fun e he => ?_, fun v out hok => by simp at hok⟩
          simp only [Except.error.injEq] at he
          subst he
          exact Or.inr (by simp only [read_data_num_error_eq h1, Error.fromValueReadError])
        | ok p1 =>
          obtain ⟨len, st2⟩ := p1
          rw [h1] at h
          dsimp only at h
          cases h2 : read_bin_data st2 len with
          | error e2 =>
            rw [h2] at h
            dsimp only at h
            simp only [Option.some.injEq] at h
            subst h
            refine ⟨fun e he => ?_, fun v out hok => by simp at hok⟩
            simp only [Except.error.injEq] at he
            subst he
            exact Or.inr (read_bin_data_error_eq h2)
          | ok p2 =>
            obtain ⟨buf, st3⟩ := p2
            rw [h2] at h
            dsimp only at h
            simp only [Option.some.injEq] at h
            subst h
            refine ⟨fun e he => by simp at he, fun v out hok => ?_⟩
            simp only [Except.ok.injEq, Prod.mk.injEq] at hok
            obtain ⟨rfl, rfl⟩ := hok
            obtain ⟨C1, rfl, k1⟩ := read_data_num_consumes h1
            obtain ⟨C2, rfl, k2⟩ := read_bin_data_consumes h2
            refine ⟨C0 ++ (C1 ++ C2), by simp [List.append_assoc], fun rest => ?_⟩
            rw [read_value]
            rw [show (C0 ++ (C1 ++ C2)) ++ rest = C0 ++ (C1 ++ (C2 ++ rest)) by simp [List.append_assoc]]
            rw [k0]
            dsimp only
            rw [show read_data_u32 (C1 ++ (C2 ++ rest)) = .ok (len, C2 ++ rest) from k1 _]
            dsimp only
            rw [show read_bin_data (C2 ++ rest) len = .ok (buf, rest) from k2 rest]
      | Ext8 =>
        dsimp only at h
        cases h1 : read_data_u8 st1 with
        | error e1 =>
          rw [h1] at h
          dsimp only at h
          simp only [Option.some.injEq] at h
          subst h
          refine ⟨fun e he => ?_, fun v out hok => by simp at hok⟩
          simp only [Except.error.injEq] at he
          subst he
          exact Or.inr (by simp only [read_data_num_error_eq h1, Error.fromValueReadError])
        | ok p1 =>
          obtain ⟨len, st2⟩ := p1
          rw [h1] at h
          dsimp only at h
          cases h2 : read_ext_body st2 len with
          | error e2 =>
            rw [h2] at h
            dsimp only at h
            simp only [Option.some.injEq] at h
            subst h
            refine ⟨fun e he => ?_, fun v out hok => by simp at hok⟩
            simp only [Except.error.injEq] at he
            subst he
            exact Or.inr (read_ext_body_error_eq h2)
          | ok p2 =>
            obtain ⟨⟨ty, buf⟩, st3⟩ := p2
            rw [h2] at h
            dsimp only at h
            simp only [Option.some.injEq] at h
            subst h
            refine ⟨fun e he => by simp at he, fun v out hok => ?_⟩
            simp only [Except.ok.injEq, Prod.mk.injEq] at hok
            obtain ⟨rfl, rfl⟩ := hok
            obtain ⟨C1, rfl, k1⟩ := read_data_num_consumes h1
            obtain ⟨C2, rfl, k2⟩ := read_ext_body_consumes h2
            refine ⟨C0 ++ (C1 ++ C2), by simp [List.append_assoc], fun rest => ?_⟩
            rw [read_value]
            rw [show (C0 ++ (C1 ++ C2)) ++ rest = C0 ++ (C1 ++ (C2 ++ rest)) by simp [List.append_assoc]]
            rw [k0]
            dsimp only
            rw [show read_data_u8 (C1 ++ (C2 ++ rest)) = .ok (len, C2 ++ rest) from k1 _]
            dsimp only
            rw [show read_ext_body (C2 ++ rest) len = .ok ((ty, buf), rest) from k2 rest]
      | Ext16 =>
        dsimp only at h
        cases h1 : read_data_u16 st1 with
        | error e1 =>
          rw [h1] at h
          dsimp only at h
          simp only [Option.some.injEq] at h
          subst h
          refine ⟨fun e he => ?_, fun v out hok => by simp at hok⟩
          simp only [Except.error.injEq] at he
          subst he
          exact Or.inr (by simp only [read_data_num_error_eq h1, Error.fromValueReadError])
        | ok p1 =>
          obtain ⟨len, st2⟩ := p1
          rw [h1] at h
          dsimp only at h
          cases h2 : read_ext_body st2 len with
          | error e2 =>
            rw [h2] at h
            dsimp only at h
            simp only [Option.some.injEq] at h
            subst h
            refine ⟨fun e he => ?_, fun v out hok => by simp at hok⟩
            simp only [Except.error.injEq] at he
            subst he
            exact Or.inr (read_ext_body_error_eq h2)
          | ok p2 =>
            obtain ⟨⟨ty, buf⟩, st3⟩ := p2
            rw [h2] at h
            dsimp only at h
            simp only [Option.some.injEq] at h
            subst h
            refine ⟨fun e he => by simp at he, fun v out hok => ?_⟩
            simp only [Except.ok.injEq, Prod.mk.injEq] at hok
            obtain ⟨rfl, rfl⟩ := hok
            obtain ⟨C1, rfl, k1⟩ := read_data_num_consumes h1
            obtain ⟨C2, rfl, k2⟩ := read_ext_body_consumes h2
            refine ⟨C0 ++ (C1 ++ C2), by simp [List.append_assoc], fun rest => ?_⟩
            rw [read_value]
            rw [show (C0 ++ (C1 ++ C2)) ++ rest = C0 ++ (C1 ++ (C2 ++ rest)) by simp [List.append_assoc]]
            rw [k0]
            dsimp only
            rw [show read_data_u16 (C1 ++ (C2 ++ rest)) = .ok (len, C2 ++ rest) from k1 _]
            dsimp only
            rw [show read_ext_body (C2 ++ rest) len = .ok ((ty, buf), rest) from k2 rest]
      | Ext32 =>
        dsimp only at h
        cases h1 : read_data_u32 st1 with
        | error e1 =>
          rw [h1] at h
          dsimp only at h
          simp only [Option.some.injEq] at h
          subst h
          refine ⟨fun e he => ?_, fun v out hok => by simp at hok⟩
          simp only [Except.error.injEq] at he
          subst he
          exact Or.inr (by simp only [read_data_num_error_eq h1, Error.fromValueReadError])
        | ok p1 =>
          obtain ⟨len, st2⟩ := p1
          rw [h1] at h
          dsimp only at h
          cases h2 : read_ext_body st2 len with
          | error e2 =>
            rw [h2] at h
            dsimp only at h
            simp only [Option.some.injEq] at h
            subst h
            refine ⟨fun e he => ?_, fun v out hok => by simp at hok⟩
            simp only [Except.error.injEq] at he
            subst he
            exact Or.inr (read_ext_body_error_eq h2)
          | ok p2 =>
            obtain ⟨⟨ty, buf⟩, st3⟩ := p2
            rw [h2] at h
            dsimp only at h
            simp only [Option.some.injEq] at h
            subst h
            refine ⟨fun e he => by simp at he, fun v out hok => ?_⟩
            simp only [Except.ok.injEq, Prod.mk.injEq] at hok
            obtain ⟨rfl, rfl⟩ := hok
            obtain ⟨C1, rfl, k1⟩ := read_data_num_consumes h1
            obtain ⟨C2, rfl, k2⟩ := read_ext_body_consumes h2
            refine ⟨C0 ++ (C1 ++ C2), by simp [List.append_assoc], fun rest => ?_⟩
            rw [read_value]
            rw [show (C0 ++ (C1 ++ C2)) ++ rest = C0 ++ (C1 ++ (C2 ++ rest)) by simp [List.append_assoc]]
            rw [k0]
            dsimp only
            rw [show read_data_u32 (C1 ++ (C2 ++ rest)) = .ok (len, C2 ++ rest) from k1 _]
            dsimp only
            rw [show read_ext_body (C2 ++ rest) len = .ok ((ty, buf), rest) from k2 rest]
      | FixExt1 =>
        dsimp only at h
        cases h1 : read_ext_body st1 1 with
        | error e1 =>
          rw [h1] at h
          dsimp only at h
          simp only [Option.some.injEq] at h
          subst h
          refine ⟨fun e he => ?_, fun v out hok => by simp at hok⟩
          simp only [Except.error.injEq] at he
          subst he
          exact Or.inr (read_ext_body_error_eq h1)
        | ok p1 =>
          obtain ⟨⟨ty, buf⟩, st2⟩ := p1
          rw [h1] at h
          dsimp only at h
          simp only [Option.some.injEq] at h
          subst h
          refine ⟨fun e he => by simp at he, fun v out hok => ?_⟩
          simp only [Except.ok.injEq, Prod.mk.injEq] at hok
          obtain ⟨rfl, rfl⟩ := hok
          obtain ⟨C1, rfl, k1⟩ := read_ext_body_consumes h1
          refine ⟨C0 ++ C1, by rw [List.append_assoc], fun rest => ?_⟩
          rw [read_value, List.append_assoc, k0]
          dsimp only
          rw [show read_ext_body (C1 ++ rest) 1 = .ok ((ty, buf), rest) from k1 rest]
      | FixExt2 =>
        dsimp only at h
        cases h1 : read_ext_body st1 2 with
        | error e1 =>
          rw [h1] at h
          dsimp only at h
          simp only [Option.some.injEq] at h
          subst h
          refine ⟨fun e he => ?_, fun v out hok => by simp at hok⟩
          simp only [Except.error.injEq] at he
          subst he
          exact Or.inr (read_ext_body_error_eq h1)
        | ok p1 =>
          obtain ⟨⟨ty, buf⟩, st2⟩ := p1
          rw [h1] at h
          dsimp only at h
          simp only [Option.some.injEq] at h
          subst h
          refine ⟨fun e he => by simp at he, fun v out hok => ?_⟩
          simp only [Except.ok.injEq, Prod.mk.injEq] at hok
          obtain ⟨rfl, rfl⟩ := hok
          obtain ⟨C1, rfl, k1⟩ := read_ext_body_consumes h1
          refine ⟨C0 ++ C1, by rw [List.append_assoc], fun rest => ?_⟩
          rw [read_value, List.append_assoc, k0]
          dsimp only
          rw [show read_ext_body (C1 ++ rest) 2 = .ok ((ty, buf), rest) from k1 rest]
      | FixExt4 =>
        dsimp only at h
        cases h1 : read_ext_body st1 4 with
        | error e1 =>
          rw [h1] at h
          dsimp only at h
          simp only [Option.some.injEq] at h
          subst h
          refine ⟨fun e he => ?_, fun v out hok => by simp at hok⟩
          simp only [Except.error.injEq] at he
          subst he
          exact Or.inr (read_ext_body_error_eq h1)
        | ok p1 =>
          obtain ⟨⟨ty, buf⟩, st2⟩ := p1
          rw [h1] at h
          dsimp only at h
          simp only [Option.some.injEq] at h
          subst h
          refine ⟨fun e he => by simp at he, fun v out hok => ?_⟩
          simp only [Except.ok.injEq, Prod.mk.injEq] at hok
          obtain ⟨rfl, rfl⟩ := hok
          obtain ⟨C1, rfl, k1⟩ := read_ext_body_consumes h1
          refine ⟨C0 ++ C1, by rw [List.append_assoc], fun rest => ?_⟩
          rw [read_value, List.append_assoc, k0]
          dsimp only
          rw [show read_ext_body (C1 ++ rest) 4 = .ok ((ty, buf), rest) from k1 rest]
      | FixExt8 =>
        dsimp only at h
        cases h1 : read_ext_body st1 8 with
        | error e1 =>
          rw [h1] at h
          dsimp only at h
          simp only [Option.some.injEq] at h
          subst h
          refine ⟨fun e he => ?_, fun v out hok => by simp at hok⟩
          simp only [Except.error.injEq] at he
          subst he
          exact Or.inr (read_ext_body_error_eq h1)
        | ok p1 =>
          obtain ⟨⟨ty, buf⟩, st2⟩ := p1
          rw [h1] at h
          dsimp only at h
          simp only [Option.some.injEq] at h
          subst h
          refine ⟨fun e he => by simp at he, fun v out hok => ?_⟩
          simp only [Except.ok.injEq, Prod.mk.injEq] at hok
          obtain ⟨rfl, rfl⟩ := hok
          obtain ⟨C1, rfl, k1⟩ := read_ext_body_consumes h1
          refine ⟨C0 ++ C1, by rw [List.append_assoc], fun rest => ?_⟩
          rw [read_value, List.append_assoc, k0]
          dsimp only
          rw [show read_ext_body (C1 ++ rest) 8 = .ok ((ty, buf), rest) from k1 rest]
      | FixExt16 =>
        dsimp only at h
        cases h1 : read_ext_body st1 16 with
        | error e1 =>
          rw [h1] at h
          dsimp only at h
          simp only [Option.some.injEq] at h
          subst h
          refine ⟨fun e he => ?_, fun v out hok => by simp at hok⟩
          simp only [Except.error.injEq] at he
          subst he
          exact Or.inr (read_ext_body_error_eq h1)
        | ok p1 =>
          obtain ⟨⟨ty, buf⟩, st2⟩ := p1
          rw [h1] at h
          dsimp only at h
          simp only [Option.some.injEq] at h
          subst h
          refine ⟨fun e he => by simp at he, fun v out hok => ?_⟩
          simp only [Except.ok.injEq, Prod.mk.injEq] at hok
          obtain ⟨rfl, rfl⟩ := hok
          obtain ⟨C1, rfl, k1⟩ := read_ext_body_consumes h1
          refine ⟨C0 ++ C1, by rw [List.append_assoc], fun rest => ?_⟩
          rw [read_value, List.append_assoc, k0]
          dsimp only
          rw [show read_ext_body (C1 ++ rest) 16 = .ok ((ty, buf), rest) from k1 rest]
      | FixArray len =>
        dsimp only at h
        cases h1 : read_array_data (read_value fuel) st1 len with
        | none => rw [h1] at h; dsimp only at h; simp at h
        | some x =>
          rw [h1] at h
          cases x with
          | error e1 =>
            dsimp only at h
            simp only [Option.some.injEq] at h
            subst h
            refine ⟨fun e he => ?_, fun v out hok => by simp at hok⟩
            simp only [Except.error.injEq] at he
            subst he
            exact (harr len st1 _ h1).1 e1 rfl
          | ok p1 =>
            obtain ⟨vs, st2⟩ := p1
            dsimp only at h
            simp only [Option.some.injEq] at h
            subst h
            refine ⟨fun e he => by simp at he, fun v out hok => ?_⟩
            simp only [Except.ok.injEq, Prod.mk.injEq] at hok
            obtain ⟨rfl, rfl⟩ := hok
            obtain ⟨_hlen, C1, rfl, k1⟩ := (harr len st1 _ h1).2 vs st2 rfl
            refine ⟨C0 ++ C1, by rw [List.append_assoc], fun rest => ?_⟩
            rw [read_value, List.append_assoc, k0]
            dsimp only
            rw [show read_array_data (read_value fuel) (C1 ++ rest) len = some (.ok (vs, rest)) from k1 rest]
      | Array16 =>
        dsimp only at h
        cases h1 : read_data_u16 st1 with
        | error e1 =>
          rw [h1] at h
          dsimp only at h
          simp only [Option.some.injEq] at h
          subst h
          refine ⟨fun e he => ?_, fun v out hok => by simp at hok⟩
          simp only [Except.error.injEq] at he
          subst he
          exact Or.inr (by simp only [read_data_num_error_eq h1, Error.fromValueReadError])
        | ok p1 =>
          obtain ⟨len, st2⟩ := p1
          rw [h1] at h
          dsimp only at h
          cases h2 : read_array_data (read_value fuel) st2 len with
          | none => rw [h2] at h; dsimp only at h; simp at h
          | some x =>
            rw [h2] at h
            cases x with
            | error e2 =>
              dsimp only at h
              simp only [Option.some.injEq] at h
              subst h
              refine ⟨fun e he => ?_, fun v out hok => by simp at hok⟩
              simp only [Except.error.injEq] at he
              subst he
              exact (harr len st2 _ h2).1 e2 rfl
            | ok p2 =>
              obtain ⟨vs, st3⟩ := p2
              dsimp only at h
              simp only [Option.some.injEq] at h
              subst h
              refine ⟨fun e he => by simp at he, fun v out hok => ?_⟩
              simp only [Except.ok.injEq, Prod.mk.injEq] at hok
              obtain ⟨rfl, rfl⟩ := hok
              obtain ⟨_hlen, C2, rfl, k2⟩ := (harr len st2 _ h2).2 vs st3 rfl
              obtain ⟨C1, rfl, k1⟩ := read_data_num_consumes h1
              refine ⟨C0 ++ (C1 ++ C2), by simp [List.append_assoc], fun rest => ?_⟩
              rw [read_value]
              rw [show (C0 ++ (C1 ++ C2)) ++ rest = C0 ++ (C1 ++ (C2 ++ rest)) by simp [List.append_assoc]]
              rw [k0]
              dsimp only
              rw [show read_data_u16 (C1 ++ (C2 ++ rest)) = .ok (len, C2 ++ rest) from k1 _]
              dsimp only
              rw [show read_array_data (read_value fuel) (C2 ++ rest) len = some (.ok (vs, rest)) from k2 rest]
      | Array32 =>
        dsimp only at h
        cases h1 : read_data_u32 st1 with
        | error e1 =>
          rw [h1] at h
          dsimp only at h
          simp only [Option.some.injEq] at h
          subst h
          refine ⟨fun e he => ?_, fun v out hok => by simp at hok⟩
          simp only [Except.error.injEq] at he
          subst he
          exact Or.inr (by simp only [read_data_num_error_eq h1, Error.fromValueReadError])
        | ok p1 =>
          obtain ⟨len, st2⟩ := p1
          rw [h1] at h
          dsimp only at h
          cases h2 : read_array_data (read_value fuel) st2 len with
          | none => rw [h2] at h; dsimp only at h; simp at h
          | some x =>
            rw [h2] at h
            cases x with
            | error e2 =>
              dsimp only at h
              simp only [Option.some.injEq] at h
              subst h
              refine ⟨fun e he => ?_, fun v out hok => by simp at hok⟩
              simp only [Except.error.injEq] at he
              subst he
              exact (harr len st2 _ h2).1 e2 rfl
            | ok p2 =>
              obtain ⟨vs, st3⟩ := p2
              dsimp only at h
              simp only [Option.some.injEq] at h
              subst h
              refine ⟨fun e he => by simp at he, fun v out hok => ?_⟩
              simp only [Except.ok.injEq, Prod.mk.injEq] at hok
              obtain ⟨rfl, rfl⟩ := hok
              obtain ⟨_hlen, C2, rfl, k2⟩ := (harr len st2 _ h2).2 vs st3 rfl
              obtain ⟨C1, rfl, k1⟩ := read_data_num_consumes h1
              refine ⟨C0 ++ (C1 ++ C2), by simp [List.append_assoc], fun rest => ?_⟩
              rw [read_value]
              rw [show (C0 ++ (C1 ++ C2)) ++ rest = C0 ++ (C1 ++ (C2 ++ rest)) by simp [List.append_assoc]]
              rw [k0]
              dsimp only
              rw [show read_data_u32 (C1 ++ (C2 ++ rest)) = .ok (len, C2 ++ rest) from k1 _]
              dsimp only
              rw [show read_array_data (read_value fuel) (C2 ++ rest) len = some (.ok (vs, rest)) from k2 rest]
      | FixMap len =>
        dsimp only at h
        cases h1 : read_map_data (read_value fuel) st1 len with
        | none => rw [h1] at h; dsimp only at h; simp at h
        | some x =>
          rw [h1] at h
          cases x with
          | error e1 =>
            dsimp only at h
            simp only [Option.some.injEq] at h
            subst h
            refine ⟨fun e he => ?_, fun v out hok => by simp at hok⟩
            simp only [Except.error.injEq] at he
            subst he
            exact (hmap len st1 _ h1).1 e1 rfl
          | ok p1 =>
            obtain ⟨ps, st2⟩ := p1
            dsimp only at h
            simp only [Option.some.injEq] at h
            subst h
            refine ⟨fun e he => by simp at he, fun v out hok => ?_⟩
            simp only [Except.ok.injEq, Prod.mk.injEq] at hok
            obtain ⟨rfl, rfl⟩ := hok
            obtain ⟨_hlen, C1, rfl, k1⟩ := (hmap len st1 _ h1).2 ps st2 rfl
            refine ⟨C0 ++ C1, by rw [List.append_assoc], fun rest => ?_⟩
            rw [read_value, List.append_assoc, k0]
            dsimp only
            rw [show read_map_data (read_value fuel) (C1 ++ rest) len = some (.ok (ps, rest)) from k1 rest]
      | Map16 =>
        dsimp only at h
        cases h1 : read_data_u16 st1 with
        | error e1 =>
          rw [h1] at h
          dsimp only at h
          simp only [Option.some.injEq] at h
          subst h
          refine ⟨fun e he => ?_, fun v out hok => by simp at hok⟩
          simp only [Except.error.injEq] at he
          subst he
          exact Or.inr (by simp only [read_data_num_error_eq h1, Error.fromValueReadError])
        | ok p1 =>
          obtain ⟨len, st2⟩ := p1
          rw [h1] at h
          dsimp only at h
          cases h2 : read_map_data (read_value fuel) st2 len with
          | none => rw [h2] at h; dsimp only at h; simp at h
          | some x =>
            rw [h2] at h
            cases x with
            | error e2 =>
              dsimp only at h
              simp only [Option.some.injEq] at h
              subst h
              refine ⟨fun e he => ?_, fun v out hok => by simp at hok⟩
              simp only [Except.error.injEq] at he
              subst he
              exact (hmap len st2 _ h2).1 e2 rfl
            | ok p2 =>
              obtain ⟨ps, st3⟩ := p2
              dsimp only at h
              simp only [Option.some.injEq] at h
              subst h
              refine ⟨fun e he => by simp at he, fun v out hok => ?_⟩
              simp only [Except.ok.injEq, Prod.mk.injEq] at hok
              obtain ⟨rfl, rfl⟩ := hok
              obtain ⟨_hlen, C2, rfl, k2⟩ := (hmap len st2 _ h2).2 ps st3 rfl
              obtain ⟨C1, rfl, k1⟩ := read_data_num_consumes h1
              refine ⟨C0 ++ (C1 ++ C2), by simp [List.append_assoc], fun rest => ?_⟩
              rw [read_value]
              rw [show (C0 ++ (C1 ++ C2)) ++ rest = C0 ++ (C1 ++ (C2 ++ rest)) by simp [List.append_assoc]]
              rw [k0]
              dsimp only
              rw [show read_data_u16 (C1 ++ (C2 ++ rest)) = .ok (len, C2 ++ rest) from k1 _]
              dsimp only
              rw [show read_map_data (read_value fuel) (C2 ++ rest) len = some (.ok (ps, rest)) from k2 rest]
      | Map32 =>
        dsimp only at h
        cases h1 : read_data_u32 st1 with
        | error e1 =>
          rw [h1] at h
          dsimp only at h
          simp only [Option.some.injEq] at h
          subst h
          refine ⟨fun e he => ?_, fun v out hok => by simp at hok⟩
          simp only [Except.error.injEq] at he
          subst he
          exact Or.inr (by simp only [read_data_num_error_eq h1, Error.fromValueReadError])
        | ok p1 =>
          obtain ⟨len, st2⟩ := p1
          rw [h1] at h
          dsimp only at h
          cases h2 : read_map_data (read_value fuel) st2 len with
          | none => rw [h2] at h; dsimp only at h; simp at h
          | some x =>
            rw [h2] at h
            cases x with
            | error e2 =>
              dsimp only at h
              simp only [Option.some.injEq] at h
              subst h
              refine ⟨fun e he => ?_, fun v out hok => by simp at hok⟩
              simp only [Except.error.injEq] at he
              subst he
              exact (hmap len st2 _ h2).1 e2 rfl
            | ok p2 =>
              obtain ⟨ps, st3⟩ := p2
              dsimp only at h
              simp only [Option.some.injEq] at h
              subst h
              refine ⟨fun e he => by simp at he, fun v out hok => ?_⟩
              simp only [Except.ok.injEq, Prod.mk.injEq] at hok
              obtain ⟨rfl, rfl⟩ := hok
              obtain ⟨_hlen, C2, rfl, k2⟩ := (hmap len st2 _ h2).2 ps st3 rfl
              obtain ⟨C1, rfl, k1⟩ := read_data_num_consumes h1
              refine ⟨C0 ++ (C1 ++ C2), by simp [List.append_assoc], fun rest => ?_⟩
              rw [read_value]
              rw [show (C0 ++ (C1 ++ C2)) ++ rest = C0 ++ (C1 ++ (C2 ++ rest)) by simp [List.append_assoc]]
              rw [k0]
              dsimp only
              rw [show read_data_u32 (C1 ++ (C2 ++ rest)) = .ok (len, C2 ++ rest) from k1 _]
              dsimp only
              rw [show read_map_data (read_value fuel) (C2 ++ rest) len = some (.ok (ps, rest)) from k2 rest]
      | Reserved =>
        dsimp only at h
        simp only [Option.some.injEq] at h
        subst h
        refine ⟨fun e he => by simp at he, fun v out hok => ?_⟩
        simp only [Except.ok.injEq, Prod.mk.injEq] at hok
        obtain ⟨rfl, rfl⟩ := hok
        exact ⟨C0, rfl, fun rest => by rw [read_value, k0]⟩


/-- Corollary of the master property: every error has the expected shape. -/
theorem read_value_error_shape {fuel : Nat} {st : Stream} {e : Error}
    (h : read_value fuel st = some (.error e)) : ErrShape e :=
  (read_value_good fuel st _ h).1 e rfl

/-- Corollary of the master property: a successful decode consumed a
determined prefix of the input and does not look past it. -/
theorem read_value_consumes {fuel : Nat} {st : Stream} {v : Value} {out : Stream}
    (h : read_value fuel st = some (.ok (v, out))) :
    ∃ C, st = C ++ out ∧ ∀ rest, read_value fuel (C ++ rest) = some (.ok (v, rest)) :=
  (read_value_good fuel st _ h).2 v out rfl

/-- After a successful top-level marker read of a non-container marker, every
failure of the decode is the data-read variant wrapping the end-of-input
error. -/
theorem read_value_error_after_marker (fuel : Nat) (st : Stream) (b : Nat)
    (st1 : Stream) (e : Error) (hb : readByte st = .ok (b, st1))
    (hnc : containerMarker (Marker.fromU8 b) = false)
    (he : read_value (fuel + 1) st = some (.error e)) :
    e = .InvalidDataRead eofErr := by
  have hrm : read_marker st = .ok (Marker.fromU8 b, st1) := by rw [read_marker, hb]
  rw [read_value, hrm] at he
  dsimp only at he
  generalize hmm : Marker.fromU8 b = m at he hnc
  clear hmm hrm hb
  cases m with
    | Null =>
      dsimp only at he
      simp at he
    | True =>
      dsimp only at he
      simp at he
    | False =>
      dsimp only at he
      simp at he
    | FixPos val =>
      dsimp only at he
      simp at he
    | FixNeg val =>
      dsimp only at he
      simp at he
    | U8 =>
      dsimp only at he
      cases h1 : read_data_u8 st1 with
      | error e1 =>
        rw [h1] at he
        dsimp only at he
        simp only [Option.some.injEq, Except.error.injEq] at he
        rw [← he]
        simp only [read_data_num_error_eq h1, Error.fromValueReadError]
      | ok p1 =>
        obtain ⟨n, st2⟩ := p1
        rw [h1] at he
        dsimp only at he
        simp at he
    | U16 =>
      dsimp only at he
      cases h1 : read_data_u16 st1 with
      | error e1 =>
        rw [h1] at he
        dsimp only at he
        simp only [Option.some.injEq, Except.error.injEq] at he
        rw [← he]
        simp only [read_data_num_error_eq h1, Error.fromValueReadError]
      | ok p1 =>
        obtain ⟨n, st2⟩ := p1
        rw [h1] at he
        dsimp only at he
        simp at he
    | U32 =>
      dsimp only at he
      cases h1 : read_data_u32 st1 with
      | error e1 =>
        rw [h1] at he
        dsimp only at he
        simp only [Option.some.injEq, Except.error.injEq] at he
        rw [← he]
        simp only [read_data_num_error_eq h1, Error.fromValueReadError]
      | ok p1 =>
        obtain ⟨n, st2⟩ := p1
        rw [h1] at he
        dsimp only at he
        simp at he
    | U64 =>
      dsimp only at he
      cases h1 : read_data_u64 st1 with
      | error e1 =>
        rw [h1] at he
        dsimp only at he
        simp only [Option.some.injEq, Except.error.injEq] at he
        rw [← he]
        simp only [read_data_num_error_eq h1, Error.fromValueReadError]
      | ok p1 =>
        obtain ⟨n, st2⟩ := p1
        rw [h1] at he
        dsimp only at he
        simp at he
    | I8 =>
      dsimp only at he
      cases h1 : read_data_i8 st1 with
      | error e1 =>
        rw [h1] at he
        dsimp only at he
        simp only [Option.some.injEq, Except.error.injEq] at he
        rw [← he]
        simp only [read_data_int_error_eq h1, Error.fromValueReadError]
      | ok p1 =>
        obtain ⟨n, st2⟩ := p1
        rw [h1] at he
        dsimp only at he
        simp at he
    | I16 =>
      dsimp only at he
      cases h1 : read_data_i16 st1 with
      | error e1 =>
        rw [h1] at he
        dsimp only at he
        simp only [Option.some.injEq, Except.error.injEq] at he
        rw [← he]
        simp only [read_data_int_error_eq h1, Error.fromValueReadError]
      | ok p1 =>
        obtain ⟨n, st2⟩ := p1
        rw [h1] at he
        dsimp only at he
        simp at he
    | I32 =>
      dsimp only at he
      cases h1 : read_data_i32 st1 with
      | error e1 =>
        rw [h1] at he
        dsimp only at he
        simp only [Option.some.injEq, Except.error.injEq] at he
        rw [← he]
        simp only [read_data_int_error_eq h1, Error.fromValueReadError]
      | ok p1 =>
        obtain ⟨n, st2⟩ := p1
        rw [h1] at he
        dsimp only at he
        simp at he
    | I64 =>
      dsimp only at he
      cases h1 : read_data_i64 st1 with
      | error e1 =>
        rw [h1] at he
        dsimp only at he
        simp only [Option.some.injEq, Except.error.injEq] at he
        rw [← he]
        simp only [read_data_int_error_eq h1, Error.fromValueReadError]
      | ok p1 =>
        obtain ⟨n, st2⟩ := p1
        rw [h1] at he
        dsimp only at he
        simp at he
    | F32 =>
      dsimp only at he
      cases h1 : read_data_f32 st1 with
      | error e1 =>
        rw [h1] at he
        dsimp only at he
        simp only [Option.some.injEq, Except.error.injEq] at he
        rw [← he]
        simp only [read_data_num_error_eq h1, Error.fromValueReadError]
      | ok p1 =>
        obtain ⟨n, st2⟩ := p1
        rw [h1] at he
        dsimp only at he
        simp at he
    | F64 =>
      dsimp only at he
      cases h1 : read_data_f64 st1 with
      | error e1 =>
        rw [h1] at he
        dsimp only at he
        simp only [Option.some.injEq, Except.error.injEq] at he
        rw [← he]
        simp only [read_data_num_error_eq h1, Error.fromValueReadError]
      | ok p1 =>
        obtain ⟨n, st2⟩ := p1
        rw [h1] at he
        dsimp only at he
        simp at he
    | FixStr len =>
      dsimp only at he
      cases h1 : read_str_data st1 len with
      | error e1 =>
        rw [h1] at he
        dsimp only at he
        simp only [Option.some.injEq, Except.error.injEq] at he
        rw [← he]
        exact read_str_data_error_eq h1
      | ok p1 =>
        obtain ⟨res, st2⟩ := p1
        rw [h1] at he
        dsimp only at he
        simp at he
    | Str8 =>
      dsimp only at he
      cases h1 : read_data_u8 st1 with
      | error e1 =>
        rw [h1] at he
        dsimp only at he
        simp only [Option.some.injEq, Except.error.injEq] at he
        rw [← he]
        simp only [read_data_num_error_eq h1, Error.fromValueReadError]
      | ok p1 =>
        obtain ⟨len, st2⟩ := p1
        rw [h1] at he
        dsimp only at he
        cases h2 : read_str_data st2 len with
        | error e2 =>
          rw [h2] at he
          dsimp only at he
          simp only [Option.some.injEq, Except.error.injEq] at he
          rw [← he]
          exact read_str_data_error_eq h2
        | ok p2 =>
          obtain ⟨res, st3⟩ := p2
          rw [h2] at he
          dsimp only at he
          simp at he
    | Str16 =>
      dsimp only at he
      cases h1 : read_data_u16 st1 with
      | error e1 =>
        rw [h1] at he
        dsimp only at he
        simp only [Option.some.injEq, Except.error.injEq] at he
        rw [← he]
        simp only [read_data_num_error_eq h1, Error.fromValueReadError]
      | ok p1 =>
        obtain ⟨len, st2⟩ := p1
        rw [h1] at he
        dsimp only at he
        cases h2 : read_str_data st2 len with
        | error e2 =>
          rw [h2] at he
          dsimp only at he
          simp only [Option.some.injEq, Except.error.injEq] at he
          rw [← he]
          exact read_str_data_error_eq h2
        | ok p2 =>
          obtain ⟨res, st3⟩ := p2
          rw [h2] at he
          dsimp only at he
          simp at he
    | Str32 =>
      dsimp only at he
      cases h1 : read_data_u32 st1 with
      | error e1 =>
        rw [h1] at he
        dsimp only at he
        simp only [Option.some.injEq, Except.error.injEq] at he
        rw [← he]
        simp only [read_data_num_error_eq h1, Error.fromValueReadError]
      | ok p1 =>
        obtain ⟨len, st2⟩ := p1
        rw [h1] at he
        dsimp only at he
        cases h2 : read_str_data st2 len with
        | error e2 =>
          rw [h2] at he
          dsimp only at he
          simp only [Option.some.injEq, Except.error.injEq] at he
          rw [← he]
          exact read_str_data_error_eq h2
        | ok p2 =>
          obtain ⟨res, st3⟩ := p2
          rw [h2] at he
          dsimp only at he
          simp at he
    | FixArray len =>
      exact absurd hnc (by simp [containerMarker])
    | Array16 =>
      exact absurd hnc (by simp [containerMarker])
    | Array32 =>
      exact absurd hnc (by simp [containerMarker])
    | FixMap len =>
      exact absurd hnc (by simp [containerMarker])
    | Map16 =>
      exact absurd hnc (by simp [containerMarker])
    | Map32 =>
      exact absurd hnc (by simp [containerMarker])
    | Bin8 =>
      dsimp only at he
      cases h1 : read_data_u8 st1 with
      | error e1 =>
        rw [h1] at he
        dsimp only at he
        simp only [Option.some.injEq, Except.error.injEq] at he
        rw [← he]
        simp only [read_data_num_error_eq h1, Error.fromValueReadError]
      | ok p1 =>
        obtain ⟨len, st2⟩ := p1
        rw [h1] at he
        dsimp only at he
        cases h2 : read_bin_data st2 len with
        | error e2 =>
          rw [h2] at he
          dsimp only at he
          simp only [Option.some.injEq, Except.error.injEq] at he
          rw [← he]
          exact read_bin_data_error_eq h2
        | ok p2 =>
          obtain ⟨buf, st3⟩ := p2
          rw [h2] at he
          dsimp only at he
          simp at he
    | Bin16 =>
      dsimp only at he
      cases h1 : read_data_u16 st1 with
      | error e1 =>
        rw [h1] at he
        dsimp only at he
        simp only [Option.some.injEq, Except.error.injEq] at he
        rw [← he]
        simp only [read_data_num_error_eq h1, Error.fromValueReadError]
      | ok p1 =>
        obtain ⟨len, st2⟩ := p1
        rw [h1] at he
        dsimp only at he
        cases h2 : read_bin_data st2 len with
        | error e2 =>
          rw [h2] at he
          dsimp only at he
          simp only [Option.some.injEq, Except.error.injEq] at he
          rw [← he]
          exact read_bin_data_error_eq h2
        | ok p2 =>
          obtain ⟨buf, st3⟩ := p2
          rw [h2] at he
          dsimp only at he
          simp at he
    | Bin32 =>
      dsimp only at he
      cases h1 : read_data_u32 st1 with
      | error e1 =>
        rw [h1] at he
        dsimp only at he
        simp only [Option.some.injEq, Except.error.injEq] at he
        rw [← he]
        simp only [read_data_num_error_eq h1, Error.fromValueReadError]
      | ok p1 =>
        obtain ⟨len, st2⟩ := p1
        rw [h1] at he
        dsimp only at he
        cases h2 : read_bin_data st2 len with
        | error e2 =>
          rw [h2] at he
          dsimp only at he
          simp only [Option.some.injEq, Except.error.injEq] at he
          rw [← he]
          exact read_bin_data_error_eq h2
        | ok p2 =>
          obtain ⟨buf, st3⟩ := p2
          rw [h2] at he
          dsimp only at he
          simp at he
    | FixExt1 =>
      dsimp only at he
      cases h1 : read_ext_body st1 1 with
      | error e1 =>
        rw [h1] at he
        dsimp only at he
        simp only [Option.some.injEq, Except.error.injEq] at he
        rw [← he]
        exact read_ext_body_error_eq h1
      | ok p1 =>
        obtain ⟨⟨ty, buf⟩, st2⟩ := p1
        rw [h1] at he
        dsimp only at he
        simp at he
    | FixExt2 =>
      dsimp only at he
      cases h1 : read_ext_body st1 2 with
      | error e1 =>
        rw [h1] at he
        dsimp only at he
        simp only [Option.some.injEq, Except.error.injEq] at he
        rw [← he]
        exact read_ext_body_error_eq h1
      | ok p1 =>
        obtain ⟨⟨ty, buf⟩, st2⟩ := p1
        rw [h1] at he
        dsimp only at he
        simp at he
    | FixExt4 =>
      dsimp only at he
      cases h1 : read_ext_body st1 4 with
      | error e1 =>
        rw [h1] at he
        dsimp only at he
        simp only [Option.some.injEq, Except.error.injEq] at he
        rw [← he]
        exact read_ext_body_error_eq h1
      | ok p1 =>
        obtain ⟨⟨ty, buf⟩, st2⟩ := p1
        rw [h1] at he
        dsimp only at he
        simp at he
    | FixExt8 =>
      dsimp only at he
      cases h1 : read_ext_body st1 8 with
      | error e1 =>
        rw [h1] at he
        dsimp only at he
        simp only [Option.some.injEq, Except.error.injEq] at he
        rw [← he]
        exact read_ext_body_error_eq h1
      | ok p1 =>
        obtain ⟨⟨ty, buf⟩, st2⟩ := p1
        rw [h1] at he
        dsimp only at he
        simp at he
    | FixExt16 =>
      dsimp only at he
      cases h1 : read_ext_body st1 16 with
      | error e1 =>
        rw [h1] at he
        dsimp only at he
        simp only [Option.some.injEq, Except.error.injEq] at he
        rw [← he]
        exact read_ext_body_error_eq h1
      | ok p1 =>
        obtain ⟨⟨ty, buf⟩, st2⟩ := p1
        rw [h1] at he
        dsimp only at he
        simp at he
    | Ext8 =>
      dsimp only at he
      cases h1 : read_data_u8 st1 with
      | error e1 =>
        rw [h1] at he
        dsimp only at he
        simp only [Option.some.injEq, Except.error.injEq] at he
        rw [← he]
        simp only [read_data_num_error_eq h1, Error.fromValueReadError]
      | ok p1 =>
        obtain ⟨len, st2⟩ := p1
        rw [h1] at he
        dsimp only at he
        cases h2 : read_ext_body st2 len with
        | error e2 =>
          rw [h2] at he
          dsimp only at he
          simp only [Option.some.injEq, Except.error.injEq] at he
          rw [← he]
          exact read_ext_body_error_eq h2
        | ok p2 =>
          obtain ⟨⟨ty, buf⟩, st3⟩ := p2
          rw [h2] at he
          dsimp only at he
          simp at he
    | Ext16 =>
      dsimp only at he
      cases h1 : read_data_u16 st1 with
      | error e1 =>
        rw [h1] at he
        dsimp only at he
        simp only [Option.some.injEq, Except.error.injEq] at he
        rw [← he]
        simp only [read_data_num_error_eq h1, Error.fromValueReadError]
      | ok p1 =>
        obtain ⟨len, st2⟩ := p1
        rw [h1] at he
        dsimp only at he
        cases h2 : read_ext_body st2 len with
        | error e2 =>
          rw [h2] at he
          dsimp only at he
          simp only [Option.some.injEq, Except.error.injEq] at he
          rw [← he]
          exact read_ext_body_error_eq h2
        | ok p2 =>
          obtain ⟨⟨ty, buf⟩, st3⟩ := p2
          rw [h2] at he
          dsimp only at he
          simp at he
    | Ext32 =>
      dsimp only at he
      cases h1 : read_data_u32 st1 with
      | error e1 =>
        rw [h1] at he
        dsimp only at he
        simp only [Option.some.injEq, Except.error.injEq] at he
        rw [← he]
        simp only [read_data_num_error_eq h1, Error.fromValueReadError]
      | ok p1 =>
        obtain ⟨len, st2⟩ := p1
        rw [h1] at he
        dsimp only at he
        cases h2 : read_ext_body st2 len with
        | error e2 =>
          rw [h2] at he
          dsimp only at he
          simp only [Option.some.injEq, Except.error.injEq] at he
          rw [← he]
          exact read_ext_body_error_eq h2
        | ok p2 =>
          obtain ⟨⟨ty, buf⟩, st3⟩ := p2
          rw [h2] at he
          dsimp only at he
          simp at he
    | Reserved =>
      dsimp only at he
      simp at he


/-- Claim C1 counterexample: on the input consisting of the single byte 0x91
(a fixed array of declared count one, truncated before its element), the
top-level marker byte is read successfully, yet the decode failure is
reported as the marker-read variant, not the data-read variant: the nested
element decode failed at its own marker byte and its error surfaces
unchanged. -/
theorem claim1_counterexample :
    readByte (bytes [0x91]) = .ok (0x91, []) ∧
    read_value 2 (bytes [0x91]) = some (.error (.InvalidMarkerRead eofErr)) :=
  ⟨rfl, rfl⟩

/-- Claim C1 (amended): after a successful top-level marker read, every
decode failure wraps the end-of-input I/O error in one of the two variants,
and when the marker is not an array or map marker the failure is always the
data-read variant; for array and map markers the failure of a recursively
decoded element surfaces as that recursive decode reported it, which is the
marker-read variant when the nested failure was at a marker byte. -/
theorem claim1_error_classification (fuel : Nat) (st : Stream) (b : Nat)
    (st1 : Stream) (e : Error) (hb : readByte st = .ok (b, st1))
    (he : read_value (fuel + 1) st = some (.error e)) :
    ErrShape e ∧
      (containerMarker (Marker.fromU8 b) = false → e = .InvalidDataRead eofErr) :=
  ⟨read_value_error_shape he,
    fun hnc => read_value_error_after_marker fuel st b st1 e hb hnc he⟩

/-- Witness for claim C1 at the input 0xcc (an unsigned 8 bit marker whose
one-byte payload is missing). -/
theorem claim1_witness :
    ErrShape (Error.InvalidDataRead eofErr) ∧
      (containerMarker (Marker.fromU8 0xcc) = false →
        Error.InvalidDataRead eofErr = .InvalidDataRead eofErr) :=
  claim1_error_classification 0 (bytes [0xcc]) 0xcc [] _ rfl rfl

/-- Claim C2: when the declared payload bytes of a string can all be read but
are not valid UTF-8, the decode succeeds with a text value retaining the
complete original bytes together with the byte offset of the first invalid
sequence; in particular, a one-byte string payload 0xff decodes successfully
with retained byte 0xff and invalid offset zero. -/
theorem claim2_invalid_utf8_lenient :
    (∀ (st : Stream) (len : Nat) (buf : List Nat) (out : Stream) (off : Nat),
      read_bin_data st len = .ok (buf, out) → utf8ValidUpTo buf = some off →
      read_str_data st len = .ok (⟨.error (buf, off)⟩, out)) ∧
    (∀ (fuel len : Nat) (bs : List Nat) (rest : Stream) (off : Nat),
      len = bs.length → len ≤ 31 → utf8ValidUpTo bs = some off →
      read_value (fuel + 1) (Event.byte (0xa0 + len) :: (bytes bs ++ rest)) =
        some (.ok (.String ⟨.error (bs, off)⟩, rest))) ∧
    (∀ fuel : Nat, read_value (fuel + 1) (bytes [0xa1, 0xff]) =
      some (.ok (.String ⟨.error ([0xff], 0)⟩, []))) := by
  refine ⟨fun st len buf out off h1 h2 => ?_, fun fuel len bs rest off hlen hle hval => ?_, fun fuel => rfl⟩
  · rw [read_str_data, h1]
    dsimp only
    rw [h2]
  · have hm : Marker.fromU8 (0xa0 + len) = .FixStr len := by
      unfold Marker.fromU8
      rw [if_neg (by omega), if_neg (by omega), if_neg (by omega), if_pos (by omega)]
      congr 1
      omega
    rw [read_value]
    rw [show read_marker (Event.byte (0xa0 + len) :: (bytes bs ++ rest)) =
        .ok (.FixStr len, bytes bs ++ rest) from by
      rw [read_marker]
      dsimp only [readByte]
      rw [hm]]
    dsimp only
    rw [show read_str_data (bytes bs ++ rest) len = .ok (⟨.error (bs, off)⟩, rest) from by
      rw [read_str_data, read_bin_data, hlen, readExact_bytes]
      dsimp only
      rw [hval]]

/-- Witness for claim C2 at the one-byte invalid payload 0xff under a fixed
string marker. -/
theorem claim2_witness :
    read_value (0 + 1) (Event.byte (0xa0 + 1) :: (bytes [0xff] ++ [])) =
      some (.ok (.String ⟨.error ([0xff], 0)⟩, [])) :=
  claim2_invalid_utf8_lenient.2.1 0 1 [0xff] [] 0 rfl (by decide) rfl

/-- Claim C3 counterexample: the single byte 0x81 declares a fixed map of one
pair with no trailing bytes available, a truncation, yet the resulting error
is the marker-read variant rather than the data-read variant, because the
truncation fell at the marker byte of the nested key decode. -/
theorem claim3_counterexample :
    read_value 2 (bytes [0x81]) = some (.error (.InvalidMarkerRead eofErr)) :=
  rfl

/-- Claim C3 (amended): truncating the input of any successful decode
strictly inside its consumed prefix always yields an error, one of the two
variants wrapping the end-of-input I/O error, and never a success with a
partial or garbage value; the variant is the data-read one except when the
truncation point falls at a nested marker byte. -/
theorem claim3_truncation_errors (fuel : Nat) (pre post : Stream) (v : Value)
    (q d : Stream) (r : Except Error (Value × Stream))
    (hfull : read_value fuel (pre ++ post) = some (.ok (v, post)))
    (hqd : pre = q ++ d) (hd : d ≠ []) (hq : read_value fuel q = some r) :
    ∃ e, r = .error e ∧ ErrShape e := by
  cases r with
  | error e => exact ⟨e, rfl, read_value_error_shape hq⟩
  | ok p =>
    obtain ⟨v2, s2⟩ := p
    exfalso
    obtain ⟨C2, rfl, k2⟩ := read_value_consumes hq
    subst hqd
    have h2 := k2 (s2 ++ (d ++ post))
    rw [show ((C2 ++ s2) ++ d) ++ post = C2 ++ (s2 ++ (d ++ post)) by
      simp [List.append_assoc]] at hfull
    rw [h2] at hfull
    simp only [Option.some.injEq, Except.ok.injEq, Prod.mk.injEq] at hfull
    have hlen := congrArg List.length hfull.2
    simp only [List.length_append] at hlen
    exact hd (List.length_eq_zero.mp (by omega))

/-- Witness for claim C3: a two-byte unsigned scalar encoding truncated after
its marker byte yields an error. -/
theorem claim3_witness :
    ∃ e, (Except.error (Error.InvalidDataRead eofErr) :
      Except Error (Value × Stream)) = .error e ∧ ErrShape e :=
  claim3_truncation_errors 1 (bytes [0xcc, 0x05]) [] (.UInt 5) (bytes [0xcc])
    (bytes [0x05]) _ rfl rfl (by decide) rfl

/-- Claim C4: an array decode with declared count N yields exactly N
elements, each obtained by a recursive value decode, in input order; the
fixed array marker dispatches to exactly that element loop, and the byte
sequence 0x92 0xc0 0x05 decodes to the two-element array holding nil and the
unsigned integer five. -/
theorem claim4_array_elements :
    (∀ (fuel len : Nat) (st : Stream) (vs : List Value) (out : Stream),
      read_array_data (read_value fuel) st len = some (.ok (vs, out)) →
      vs.length = len) ∧
    (∀ (fuel len : Nat) (st : Stream) (vs : List Value) (out : Stream),
      read_array_data (read_value fuel) st (len + 1) = some (.ok (vs, out)) ↔
      ∃ v vs2 st1, read_value fuel st = some (.ok (v, st1)) ∧
        read_array_data (read_value fuel) st1 len = some (.ok (vs2, out)) ∧
        vs = v :: vs2) ∧
    (∀ (fuel n : Nat) (st1 : Stream) (vs : List Value) (out : Stream),
      n ≤ 15 → read_array_data (read_value fuel) st1 n = some (.ok (vs, out)) →
      read_value (fuel + 1) (Event.byte (0x90 + n) :: st1) =
        some (.ok (.Array vs, out))) ∧
    (∀ (fuel : Nat) (rest : Stream),
      read_value (fuel + 2) (bytes [0x92, 0xc0, 0x05] ++ rest) =
        some (.ok (.Array [.Nil, .UInt 5], rest))) := by
  refine ⟨fun fuel len st vs out h =>
      ((read_array_data_master _ (read_value_good fuel) len st _ h).2 vs out rfl).1,
    fun fuel len st vs out => ⟨fun h => ?_, fun hex => ?_⟩,
    fun fuel n st1 vs out hn h => ?_, fun fuel rest => rfl⟩
  · rw [read_array_data] at h
    cases h1 : read_value fuel st with
    | none => rw [h1] at h; simp at h
    | some x =>
      rw [h1] at h
      cases x with
      | error e => dsimp only at h; simp at h
      | ok p =>
        obtain ⟨v, st1⟩ := p
        dsimp only at h
        cases h2 : read_array_data (read_value fuel) st1 len with
        | none => rw [h2] at h; simp at h
        | some y =>
          rw [h2] at h
          cases y with
          | error e => dsimp only at h; simp at h
          | ok q =>
            obtain ⟨vs2, st2⟩ := q
            dsimp only at h
            simp only [Option.some.injEq, Except.ok.injEq, Prod.mk.injEq] at h
            obtain ⟨hv, hout⟩ := h
            subst hout
            exact ⟨v, vs2, st1, rfl, h2, hv.symm⟩
  · obtain ⟨v, vs2, st1, h1, h2, rfl⟩ := hex
    rw [read_array_data, h1]
    dsimp only
    rw [h2]
  · have hm : Marker.fromU8 (0x90 + n) = .FixArray n := by
      unfold Marker.fromU8
      rw [if_neg (by omega), if_neg (by omega), if_pos (by omega)]
      congr 1
      omega
    rw [read_value]
    rw [show read_marker (Event.byte (0x90 + n) :: st1) = .ok (.FixArray n, st1) from by
      rw [read_marker]
      dsimp only [readByte]
      rw [hm]]
    dsimp only
    rw [h]

/-- Witness for claim C4: a one-element fixed array around a nil element. -/
theorem claim4_witness :
    read_value (1 + 1) (Event.byte (0x90 + 1) :: bytes [0xc0]) =
      some (.ok (.Array [.Nil], [])) :=
  claim4_array_elements.2.2.1 1 1 (bytes [0xc0]) [.Nil] [] (by decide) rfl

/-- Claim C5: a map decode with declared pair count N yields exactly N
key and value pairs in input order, the key of each pair fully decoded, with
all of its recursion, before its value decode starts, and duplicate keys are
kept without deduplication or sorting, as the example with two nil keys
shows. -/
theorem claim5_map_pairs :
    (∀ (fuel len : Nat) (st : Stream) (ps : List (Value × Value)) (out : Stream),
      read_map_data (read_value fuel) st len = some (.ok (ps, out)) →
      ps.length = len) ∧
    (∀ (fuel len : Nat) (st : Stream) (ps : List (Value × Value)) (out : Stream),
      read_map_data (read_value fuel) st (len + 1) = some (.ok (ps, out)) ↔
      ∃ k v ps2 st1 st2, read_value fuel st = some (.ok (k, st1)) ∧
        read_value fuel st1 = some (.ok (v, st2)) ∧
        read_map_data (read_value fuel) st2 len = some (.ok (ps2, out)) ∧
        ps = (k, v) :: ps2) ∧
    (∀ (fuel n : Nat) (st1 : Stream) (ps : List (Value × Value)) (out : Stream),
      n ≤ 15 → read_map_data (read_value fuel) st1 n = some (.ok (ps, out)) →
      read_value (fuel + 1) (Event.byte (0x80 + n) :: st1) =
        some (.ok (.Map ps, out))) ∧
    (∀ (fuel : Nat) (rest : Stream),
      read_value (fuel + 2) (bytes [0x82, 0xc0, 0x01, 0xc0, 0x02] ++ rest) =
        some (.ok (.Map [(.Nil, .UInt 1), (.Nil, .UInt 2)], rest))) := by
  refine ⟨fun fuel len st ps out h =>
      ((read_map_data_master _ (read_value_good fuel) len st _ h).2 ps out rfl).1,
    fun fuel len st ps out => ⟨fun h => ?_, fun hex => ?_⟩,
    fun fuel n st1 ps out hn h => ?_, fun fuel rest => rfl⟩
  · rw [read_map_data] at h
    cases h1 : read_value fuel st with
    | none => rw [h1] at h; simp at h
    | some x =>
      rw [h1] at h
      cases x with
      | error e => dsimp only at h; simp at h
      | ok p =>
        obtain ⟨k, st1⟩ := p
        dsimp only at h
        cases h2 : read_value fuel st1 with
        | none => rw [h2] at h; simp at h
        | some y =>
          rw [h2] at h
          cases y with
          | error e => dsimp only at h; simp at h
          | ok q =>
            obtain ⟨v, st2⟩ := q
            dsimp only at h
            cases h3 : read_map_data (read_value fuel) st2 len with
            | none => rw [h3] at h; simp at h
            | some z =>
              rw [h3] at h
              cases z with
              | error e => dsimp only at h; simp at h
              | ok w =>
                obtain ⟨ps2, st3⟩ := w
                dsimp only at h
                simp only [Option.some.injEq, Except.ok.injEq, Prod.mk.injEq] at h
                obtain ⟨hp, hout⟩ := h
                subst hout
                exact ⟨k, v, ps2, st1, st2, rfl, h2, h3, hp.symm⟩
  · obtain ⟨k, v, ps2, st1, st2, h1, h2, h3, rfl⟩ := hex
    rw [read_map_data, h1]
    dsimp only
    rw [h2]
    dsimp only
    rw [h3]
  · have hm : Marker.fromU8 (0x80 + n) = .FixMap n := by
      unfold Marker.fromU8
      rw [if_neg (by omega), if_pos (by omega)]
      congr 1
      omega
    rw [read_value]
    rw [show read_marker (Event.byte (0x80 + n) :: st1) = .ok (.FixMap n, st1) from by
      rw [read_marker]
      dsimp only [readByte]
      rw [hm]]
    dsimp only
    rw [h]

/-- Witness for claim C5: a one-pair fixed map with a nil key and an inline
integer value. -/
theorem claim5_witness :
    read_value (1 + 1) (Event.byte (0x80 + 1) :: bytes [0xc0, 0x07]) =
      some (.ok (.Map [(.Nil, .UInt 7)], [])) :=
  claim5_map_pairs.2.2.1 1 1 (bytes [0xc0, 0x07]) [(.Nil, .UInt 7)] []
    (by decide) rfl

/-- Claim C6: declared zero counts and zero lengths never fail: empty fixed
and sixteen-bit arrays, maps, strings and binaries all decode to empty
content, for every remaining input including none at all. -/
theorem claim6_zero_counts (fuel : Nat) (rest : Stream) :
    read_value (fuel + 1) (Event.byte 0x90 :: rest) = some (.ok (.Array [], rest)) ∧
    read_value (fuel + 1) (Event.byte 0x80 :: rest) = some (.ok (.Map [], rest)) ∧
    read_value (fuel + 1) (Event.byte 0xa0 :: rest) =
      some (.ok (.String ⟨.ok []⟩, rest)) ∧
    read_value (fuel + 1) (bytes [0xd9, 0x00] ++ rest) =
      some (.ok (.String ⟨.ok []⟩, rest)) ∧
    read_value (fuel + 1) (bytes [0xc4, 0x00] ++ rest) =
      some (.ok (.Binary [], rest)) ∧
    read_value (fuel + 1) (bytes [0xdc, 0x00, 0x00] ++ rest) =
      some (.ok (.Array [], rest)) ∧
    read_value (fuel + 1) (bytes [0xde, 0x00, 0x00] ++ rest) =
      some (.ok (.Map [], rest)) :=
  ⟨rfl, rfl, rfl, rfl, rfl, rfl, rfl⟩

/-- Claim C7: extension decodes read the signed 8 bit type tag after the
length is determined and before the payload, and a successful decode carries
that tag and exactly the declared number of payload bytes; the byte sequence
0xd4 0x01 0x02 decodes to the extension value with tag one and payload 0x02. -/
theorem claim7_ext_type_tag :
    (∀ (st : Stream) (len : Nat) (ty : Int) (st1 : Stream) (buf : List Nat)
      (st2 : Stream), read_data_i8 st = .ok (ty, st1) →
      read_bin_data st1 len = .ok (buf, st2) →
      read_ext_body st len = .ok ((ty, buf), st2)) ∧
    (∀ (st : Stream) (len : Nat) (ty : Int) (buf : List Nat) (out : Stream),
      read_ext_body st len = .ok ((ty, buf), out) → buf.length = len) ∧
    (∀ (fuel : Nat) (st1 : Stream) (len : Nat) (st2 : Stream) (ty : Int)
      (buf : List Nat) (st3 : Stream), read_data_u8 st1 = .ok (len, st2) →
      read_ext_body st2 len = .ok ((ty, buf), st3) →
      read_value (fuel + 1) (Event.byte 0xc7 :: st1) =
        some (.ok (.Ext ty buf, st3))) ∧
    (∀ (fuel : Nat) (rest : Stream),
      read_value (fuel + 1) (bytes [0xd4, 0x01, 0x02] ++ rest) =
        some (.ok (.Ext 1 [0x02], rest))) := by
  refine ⟨fun st len ty st1 buf st2 h1 h2 => ?_,
    fun st len ty buf out h => read_ext_body_length h,
    fun fuel st1 len st2 ty buf st3 h1 h2 => ?_, fun fuel rest => rfl⟩
  · rw [read_ext_body, h1]
    dsimp only
    rw [h2]
  · rw [read_value]
    rw [show read_marker (Event.byte 0xc7 :: st1) = .ok (.Ext8, st1) from rfl]
    dsimp only
    rw [show read_data_u8 st1 = .ok (len, st2) from h1]
    dsimp only
    rw [h2]

/-- Witness for claim C7: the extension body of length one holding type tag
one and a single payload byte. -/
theorem claim7_witness :
    read_ext_body (bytes [0x01, 0x02]) 1 = .ok ((1, [0x02]), []) :=
  claim7_ext_type_tag.1 (bytes [0x01, 0x02]) 1 1 (bytes [0x02]) [0x02] [] rfl rfl

/-- Claim C8: the reserved marker byte 0xc1 decodes successfully to the nil
value and consumes exactly one byte, for every remaining input and every
recursion budget. -/
theorem claim8_reserved_marker (fuel : Nat) (rest : Stream) :
    read_value (fuel + 1) (Event.byte 0xc1 :: rest) = some (.ok (.Nil, rest)) :=
  rfl

/-- Claim C9: interrupted reads are retried transparently, never surfacing:
the byte reader skips an interrupt signal, a leading interrupt does not
change a decode, and no error returned by the decoder wraps an I/O error of
the interrupted kind. -/
theorem claim9_interrupt_retry :
    (∀ st : Stream, readByte (Event.interrupt :: st) = readByte st) ∧
    (∀ (fuel : Nat) (st : Stream),
      read_value (fuel + 1) (Event.interrupt :: st) = read_value (fuel + 1) st) ∧
    (∀ (fuel : Nat) (st : Stream) (e : Error),
      read_value fuel st = some (.error e) → Error.kind e ≠ .interrupted) := by
  refine ⟨fun st => rfl, fun fuel st => rfl, fun fuel st e h => ?_⟩
  rcases read_value_error_shape h with rfl | rfl <;> simp [Error.kind, eofErr]

/-- Witness for claim C9 at a truncated 32 bit float encoding. -/
theorem claim9_witness :
    Error.kind (Error.InvalidDataRead eofErr) ≠ IOErrorKind.interrupted :=
  claim9_interrupt_retry.2.2 1 (bytes [0xca]) _ rfl

/-- Claim C10: every decoder error is one of exactly two variants wrapping an
underlying I/O error, and the conversion from helper-library read errors maps
a type mismatch to the marker-read variant wrapping a fresh I/O error of the
catch-all kind carrying the message type mismatch, folding the third class of
underlying failure into the marker-read kind. -/
theorem claim10_error_variants :
    (∀ e : Error, (∃ io, e = .InvalidMarkerRead io) ∨ (∃ io, e = .InvalidDataRead io)) ∧
    (∀ m : Marker, Error.fromValueReadError (.TypeMismatch m) =
      .InvalidMarkerRead ⟨.other, "type mismatch"⟩) ∧
    (∀ io : IOError, Error.fromValueReadError (.InvalidMarkerRead io) = .InvalidMarkerRead io) ∧
    (∀ io : IOError, Error.fromValueReadError (.InvalidDataRead io) = .InvalidDataRead io) ∧
    (∀ (fuel : Nat) (st : Stream) (e : Error), read_value fuel st = some (.error e) →
      (∃ io, e = .InvalidMarkerRead io) ∨ (∃ io, e = .InvalidDataRead io)) := by
  refine ⟨fun e => ?_, fun m => rfl, fun io => rfl, fun io => rfl, fun fuel st e h => ?_⟩
  · cases e with
    | InvalidMarkerRead io => exact Or.inl ⟨io, rfl⟩
    | InvalidDataRead io => exact Or.inr ⟨io, rfl⟩
  · cases e with
    | InvalidMarkerRead io => exact Or.inl ⟨io, rfl⟩
    | InvalidDataRead io => exact Or.inr ⟨io, rfl⟩

/-- Witness for claim C10 at a sixteen-bit binary marker with its length
prefix missing. -/
theorem claim10_witness :
    (∃ io, Error.InvalidDataRead eofErr = Error.InvalidMarkerRead io) ∨
    (∃ io, Error.InvalidDataRead eofErr = Error.InvalidDataRead io) :=
  claim10_error_variants.2.2.2.2 1 (bytes [0xc5]) _ rfl

end Rmpv
